import Mathlib

/-!
# Verification development for the cube streaming server

Shallow embedding of `server/src/json_util.c` and of the signalling and
lifecycle coordinator of `server/src/main.c`.

Conventions of the embedding

* A C string is a `List Char`, one `Char` for each C `char`.  The end of the
  list plays the role of the terminating NUL, and a NUL character inside the
  list terminates the string as well (`cstr`), exactly as `*p`, `strlen`,
  `strstr`, ... see it.
* Pointers are natural numbers, `0` is `NULL`.
* Calls into libwebsockets, GLib, GStreamer and pthreads are recorded in an
  effect trace (`List Effect`); the values those libraries return are supplied
  by explicit environment records.
-/

namespace CubeServer

/-! ## C strings -/

/-- The NUL character. -/
def NUL : Char := Char.ofNat 0

/-- The C string stored in a buffer: the characters before the first NUL. -/
def cstr : List Char → List Char
  | [] => []
  | c :: p => if c = NUL then [] else c :: cstr p

/-- `strlen`. -/
def strlen (s : List Char) : Nat := (cstr s).length

/-- `strcmp(a, b) == 0`. -/
def strcmp_eq (a b : List Char) : Bool := decide (cstr a = cstr b)

/-! ## json_util.c -/

/-- First loop of `json_escape`: the number of characters the output needs. -/
def json_escape_len : List Char → Nat
  | [] => 0
  | c :: p =>
    if c = NUL then 0
    else if c = '"' ∨ c = '\\' ∨ c = '\n' ∨ c = '\r' ∨ c = '\t' then json_escape_len p + 2
    else json_escape_len p + 1

/-- Second loop of `json_escape`: the characters written to `out`. -/
def json_escape : List Char → List Char
  | [] => []
  | c :: p =>
    if c = NUL then []
    else if c = '"' then '\\' :: '"' :: json_escape p
    else if c = '\\' then '\\' :: '\\' :: json_escape p
    else if c = '\n' then '\\' :: 'n' :: json_escape p
    else if c = '\r' then '\\' :: 'r' :: json_escape p
    else if c = '\t' then '\\' :: 't' :: json_escape p
    else c :: json_escape p

/-- The `switch` of `json_unescape` on the character after a backslash. -/
def unescape_char (c : Char) : Char :=
  if c = 'n' then '\n'
  else if c = 'r' then '\r'
  else if c = 't' then '\t'
  else if c = '"' then '"'
  else if c = '\\' then '\\'
  else c

/-- The loop of `json_unescape` over the `len = strlen(input)` characters:
a backslash that has a successor (`i + 1 < len`) consumes it. -/
def json_unescape_loop : List Char → List Char
  | [] => []
  | [c] => [c]
  | c :: d :: rest =>
    if c = '\\' then unescape_char d :: json_unescape_loop rest
    else c :: json_unescape_loop (d :: rest)

/-- `json_unescape`. -/
def json_unescape (input : List Char) : List Char :=
  json_unescape_loop (cstr input)

/-- `strstr(haystack, needle)` on C strings: the suffix of the haystack that
starts at the first occurrence of the needle. -/
def strstr : List Char → List Char → Option (List Char)
  | [], needle => if needle.isPrefixOf [] then some [] else none
  | c :: t, needle => if needle.isPrefixOf (c :: t) then some (c :: t) else strstr t needle

/-- `strchr(s, x)` for a non-NUL `x`: the suffix that starts at the first `x`. -/
def strchr : List Char → Char → Option (List Char)
  | [], _ => none
  | c :: t, x => if c = x then some (c :: t) else strchr t x

/-- `snprintf(needle, sizeof(needle), "\"%s\"", key)` with `char needle[64]`:
the quoted key, cut to 63 characters. -/
def json_needle (key : List Char) : List Char :=
  (('"' :: cstr key) ++ ['"']).take 63

/-- `while (*pos == ' ' || *pos == '\t') pos++;` -/
def skip_blanks : List Char → List Char
  | [] => []
  | c :: t => if c = ' ' ∨ c = '\t' then skip_blanks t else c :: t

/-- The scan of `json_get_string` from `start` to the closing quote: the
characters passed over.  `escape` is the flag of the same name. -/
def scan_raw : List Char → Bool → List Char
  | [], _ => []
  | c :: t, escape =>
    if escape = false ∧ c = '"' then []
    else if escape = false ∧ c = '\\' then c :: scan_raw t true
    else c :: scan_raw t false

/-- `json_get_string`; `none` is the `NULL` result. -/
def json_get_string (json key : List Char) : Option (List Char) :=
  let needle := json_needle key
  match strstr (cstr json) needle with
  | none => none
  | some pos =>
    match strchr (pos.drop (strlen needle)) ':' with
    | none => none
    | some pos =>
      match skip_blanks (pos.drop 1) with
      | [] => none
      | c :: start => if c ≠ '"' then none else some (json_unescape (scan_raw start false))

/-- `isspace` in the C locale. -/
def isspace (c : Char) : Bool :=
  c = ' ' || c = '\t' || c = '\n' || c = '\x0b' || c = '\x0c' || c = '\r'

/-- Leading white space skipped by `atoi`. -/
def skip_space : List Char → List Char
  | [] => []
  | c :: t => if isspace c then skip_space t else c :: t

/-- The value of the leading run of decimal digits, continuing from `acc`. -/
def atoi_digits : List Char → Nat → Nat
  | [], acc => acc
  | c :: t, acc =>
    if 48 ≤ c.toNat ∧ c.toNat ≤ 57 then atoi_digits t (acc * 10 + (c.toNat - 48)) else acc

/-- The signed value `strtol(s, NULL, 10)` reads before range handling. -/
def atoi_value (s : List Char) : Int :=
  match skip_space s with
  | '-' :: t => -(atoi_digits t 0 : Int)
  | '+' :: t => (atoi_digits t 0 : Int)
  | t => (atoi_digits t 0 : Int)

/-- `atoi` as glibc implements it, `(int) strtol(s, NULL, 10)` on an LP64
target: the value is clamped to `long` and truncated to 32 bits.  (ISO C
leaves `atoi` undefined outside the range of `int`.) -/
def atoi (s : List Char) : Int :=
  let v := max (-(2 : Int) ^ 63) (min (atoi_value s) ((2 : Int) ^ 63 - 1))
  (v + 2 ^ 31) % 2 ^ 32 - 2 ^ 31

/-- `json_get_int`. -/
def json_get_int (json key : List Char) (def_value : Int) : Int :=
  let needle := json_needle key
  match strstr (cstr json) needle with
  | none => def_value
  | some pos =>
    match strchr (pos.drop (strlen needle)) ':' with
    | none => def_value
    | some pos => atoi (skip_blanks (pos.drop 1))

/-- Decimal digits of `n` in front of `acc`, most significant first. -/
def dec_digits_core : Nat → Nat → List Char → List Char
  | 0, _, acc => acc
  | fuel + 1, n, acc =>
    if n / 10 = 0 then Char.ofNat (48 + n % 10) :: acc
    else dec_digits_core fuel (n / 10) (Char.ofNat (48 + n % 10) :: acc)

/-- The text `printf` produces for `%d`. -/
def fmt_d (m : Int) : List Char :=
  if m < 0 then '-' :: dec_digits_core (m.natAbs + 1) m.natAbs []
  else dec_digits_core (m.natAbs + 1) m.natAbs []

/-- Value of a digit string read after the accumulator `a`. -/
def digits_value (a : Nat) (l : List Char) : Nat :=
  l.foldl (fun a c => a * 10 + (c.toNat - 48)) a

/-- Decimal digit characters. -/
def is_digit (c : Char) : Prop := 48 ≤ c.toNat ∧ c.toNat ≤ 57

/-! ## main.c: data model -/

/-- `struct WsMessage`: one node of the outbound queue.  `data` is the content
of the buffer the node owns, `next` the address of the following node. -/
structure WsMessage where
  data : List Char
  len : Nat
  next : Nat

/-- `AppState`.  The fields are those of the C struct (the mutex `ws_lock` is
represented by the atomicity of the steps that hold it).  `heap` and `live`
are the part of the process memory the queue pointers refer to: the content
of every `WsMessage` address and whether that address is currently
allocated. -/
structure AppState where
  width : Int
  height : Int
  fps : Int
  bitrate_kbps : Int
  port : Int
  stun_server : Option (List Char)
  pipeline : Nat
  appsrc : Nat
  webrtcbin : Nat
  main_loop : Nat
  main_context : Nat
  lws_context : Nat
  client_wsi : Nat
  ws_thread : Nat
  render_thread : Nat
  ws_head : Nat
  ws_tail : Nat
  running : Bool
  render_running : Bool
  heap : Nat → WsMessage
  live : Nat → Bool

/-- The callbacks handed to `g_main_context_invoke`. -/
inductive Handler where
  | handle_client_connected
  | handle_ws_message (message : List Char)
  | handle_client_closed
  deriving DecidableEq

/-- `GstState` values used by the program. -/
inductive GstState where
  | GST_STATE_NULL
  | GST_STATE_PLAYING
  deriving DecidableEq

/-- `GstStateChangeReturn`. -/
inductive GstStateChangeReturn where
  | GST_STATE_CHANGE_FAILURE
  | GST_STATE_CHANGE_SUCCESS
  | GST_STATE_CHANGE_ASYNC
  | GST_STATE_CHANGE_NO_PREROLL
  deriving DecidableEq

/-- Close codes of libwebsockets used by the program. -/
inductive LwsCloseStatus where
  | LWS_CLOSE_STATUS_POLICY_VIOLATION
  deriving DecidableEq

/-- Signals emitted on `webrtcbin` with `g_signal_emit_by_name`. -/
inductive Signal where
  | set_remote_description (sdp : List Char)
  | create_answer
  | set_local_description (sdp : List Char)
  | add_ice_candidate (mline : Int) (candidate : List Char)
  deriving DecidableEq

/-- Observable calls, in program order.  `create_pipeline`, `handle_offer` and
`handle_ice` record the entry into the function of that name. -/
inductive Effect where
  | lws_close_reason (wsi : Nat) (status : LwsCloseStatus) (reason : List Char)
  | g_main_context_invoke (context : Nat) (handler : Handler)
  | lws_write (wsi : Nat) (data : List Char) (len : Nat)
  | lws_callback_on_writable (wsi : Nat)
  | lws_cancel_service (context : Nat)
  | create_pipeline
  | gst_element_set_state (element : Nat) (state : GstState)
  | gst_object_unref (object : Nat)
  | pthread_create_render_thread_main
  | pthread_join (thread : Nat)
  | gst_app_src_push_buffer (appsrc : Nat)
  | handle_offer (sdp : List Char)
  | handle_ice (candidate : List Char) (mline : Int)
  | g_signal_emit_by_name (object : Nat) (signal : Signal)
  deriving DecidableEq

/-! ## main.c: outbound queue -/

/-- Store to one address of the node memory. -/
def heap_store (heap : Nat → WsMessage) (a : Nat) (m : WsMessage) : Nat → WsMessage :=
  fun b => if b = a then m else heap b

/-- Change the allocation status of one address. -/
def live_store (live : Nat → Bool) (a : Nat) (v : Bool) : Nat → Bool :=
  fun b => if b = a then v else live b

/-- `ws_queue_message`.  `item` is the address returned by `calloc`, which
delivers the node zero-filled. -/
def ws_queue_message (item : Nat) (state : AppState) (msg : List Char) (len : Nat) :
    AppState × List Effect :=
  let heap1 := heap_store state.heap item { data := msg, len := len, next := 0 }
  let live1 := live_store state.live item true
  let state1 : AppState :=
    if state.ws_tail ≠ 0 then
      { state with
        heap := heap_store heap1 state.ws_tail { heap1 state.ws_tail with next := item }
        live := live1
        ws_tail := item }
    else
      { state with heap := heap1, live := live1, ws_head := item, ws_tail := item }
  (state1,
    (if state.client_wsi ≠ 0 then [Effect.lws_callback_on_writable state.client_wsi] else []) ++
    (if state.lws_context ≠ 0 then [Effect.lws_cancel_service state.lws_context] else []))

/-- The reasons `ws_callback` distinguishes; every other reason takes the
`default` branch. -/
inductive CallbackReason where
  | LWS_CALLBACK_ESTABLISHED
  | LWS_CALLBACK_RECEIVE (payload : List Char)
  | LWS_CALLBACK_SERVER_WRITEABLE
  | LWS_CALLBACK_CLOSED
  | other

/-- `ws_callback`: the return value, the state afterwards and the calls made. -/
def ws_callback (wsi : Nat) (reason : CallbackReason) (state : AppState) :
    Int × AppState × List Effect :=
  match reason with
  | .LWS_CALLBACK_ESTABLISHED =>
    if state.client_wsi ≠ 0 then
      (-1, state,
        [Effect.lws_close_reason wsi .LWS_CLOSE_STATUS_POLICY_VIOLATION ['b', 'u', 's', 'y']])
    else
      (0, { state with client_wsi := wsi },
        [Effect.g_main_context_invoke state.main_context .handle_client_connected])
  | .LWS_CALLBACK_RECEIVE payload =>
    (0, state, [Effect.g_main_context_invoke state.main_context (.handle_ws_message payload)])
  | .LWS_CALLBACK_SERVER_WRITEABLE =>
    if state.ws_head ≠ 0 then
      let msg := state.ws_head
      let node := state.heap msg
      let state1 : AppState :=
        if node.next = 0 then { state with ws_head := node.next, ws_tail := 0 }
        else { state with ws_head := node.next }
      (0, { state1 with live := live_store state1.live msg false },
        Effect.lws_write wsi node.data node.len ::
          (if state1.ws_head ≠ 0 then [Effect.lws_callback_on_writable wsi] else []))
    else (0, state, [])
  | .LWS_CALLBACK_CLOSED =>
    if state.client_wsi = wsi then
      (0, { state with client_wsi := 0 },
        [Effect.g_main_context_invoke state.main_context .handle_client_closed])
    else (0, state, [])
  | .other => (0, state, [])

/-- The text `ws_send_sdp` formats: `{"type":"%s","sdp":"%s"}`. -/
def sdp_message (type sdp : List Char) : List Char :=
  ['{', '"', 't', 'y', 'p', 'e', '"', ':', '"'] ++ cstr type ++
    ['"', ',', '"', 's', 'd', 'p', '"', ':', '"'] ++ json_escape sdp ++ ['"', '}']

/-- `ws_send_sdp`. -/
def ws_send_sdp (item : Nat) (state : AppState) (type sdp : List Char) :
    AppState × List Effect :=
  ws_queue_message item state (sdp_message type sdp) (sdp_message type sdp).length

/-- The text `ws_send_ice` formats:
`{"type":"ice","candidate":"%s","sdpMLineIndex":%d}`. -/
def ice_message (candidate : List Char) (mline : Int) : List Char :=
  ['{', '"', 't', 'y', 'p', 'e', '"', ':', '"', 'i', 'c', 'e', '"', ',',
    '"', 'c', 'a', 'n', 'd', 'i', 'd', 'a', 't', 'e', '"', ':', '"'] ++ json_escape candidate ++
    ['"', ',', '"', 's', 'd', 'p', 'M', 'L', 'i', 'n', 'e', 'I', 'n', 'd', 'e', 'x', '"', ':'] ++
    fmt_d mline ++ ['}']

/-- The quoted key `"sdpMLineIndex"`. -/
def mline_needle : List Char :=
  ['"', 's', 'd', 'p', 'M', 'L', 'i', 'n', 'e', 'I', 'n', 'd', 'e', 'x', '"']

/-- What follows the escaped candidate in `ice_message`. -/
def ice_tail (mline : Int) : List Char :=
  ['"', ',', '"', 's', 'd', 'p', 'M', 'L', 'i', 'n', 'e', 'I', 'n', 'd', 'e', 'x', '"', ':'] ++
    (fmt_d mline ++ ['}'])

/-- The two searches `json_get_int` makes for the key `sdpMLineIndex`: the
first occurrence of the quoted key, then the first colon behind it. -/
def find_colon (h : List Char) : Option (List Char) :=
  (strstr h mline_needle).bind fun pos => strchr (pos.drop 15) ':'

/-- `ws_send_ice`. -/
def ws_send_ice (item : Nat) (state : AppState) (candidate : List Char) (mline : Int) :
    AppState × List Effect :=
  ws_queue_message item state (ice_message candidate mline) (ice_message candidate mline).length

/-! ## main.c: signalling -/

/-- What GStreamer answers inside `handle_offer`: whether
`gst_sdp_message_new` and `gst_sdp_message_parse_buffer` return `GST_SDP_OK`. -/
structure OfferEnv where
  sdp_new_ok : Bool
  parse_ok : Bool

/-- `on_answer_created`, the change function of the promise passed to
`create-answer`.  `answer` is the SDP text of the `answer` field of the
promise reply (`none` when the field is absent); `item` is the address
`calloc` returns in `ws_queue_message`. -/
def on_answer_created (item : Nat) (answer : Option (List Char)) (state : AppState) :
    AppState × List Effect :=
  match answer with
  | none => (state, [])
  | some sdp_text =>
    let r := ws_send_sdp item state ['a', 'n', 's', 'w', 'e', 'r'] sdp_text
    (r.1, Effect.g_signal_emit_by_name state.webrtcbin (.set_local_description sdp_text) :: r.2)

/-- `handle_offer`. -/
def handle_offer (env : OfferEnv) (state : AppState) (sdp_text : List Char) :
    AppState × List Effect :=
  if env.sdp_new_ok = false then (state, [Effect.handle_offer sdp_text])
  else if env.parse_ok = false then (state, [Effect.handle_offer sdp_text])
  else
    (state,
      [Effect.handle_offer sdp_text,
        Effect.g_signal_emit_by_name state.webrtcbin (.set_remote_description (cstr sdp_text)),
        Effect.g_signal_emit_by_name state.webrtcbin .create_answer])

/-- `handle_ice`. -/
def handle_ice (state : AppState) (candidate : List Char) (mline : Int) :
    AppState × List Effect :=
  (state,
    [Effect.handle_ice candidate mline,
      Effect.g_signal_emit_by_name state.webrtcbin (.add_ice_candidate mline candidate)])

/-- `handle_ws_message` on the text `incoming->message`. -/
def handle_ws_message (env : OfferEnv) (state : AppState) (message : List Char) :
    AppState × List Effect :=
  match json_get_string message ['t', 'y', 'p', 'e'] with
  | none => (state, [])
  | some type =>
    if strcmp_eq type ['o', 'f', 'f', 'e', 'r'] then
      match json_get_string message ['s', 'd', 'p'] with
      | some sdp => handle_offer env state sdp
      | none => (state, [])
    else if strcmp_eq type ['i', 'c', 'e'] then
      let candidate := json_get_string message ['c', 'a', 'n', 'd', 'i', 'd', 'a', 't', 'e']
      let mline := json_get_int message
        ['s', 'd', 'p', 'M', 'L', 'i', 'n', 'e', 'I', 'n', 'd', 'e', 'x'] 0
      match candidate with
      | some candidate => handle_ice state candidate mline
      | none => (state, [])
    else (state, [])

/-! ## main.c: session lifecycle -/

/-- What GStreamer returns inside `create_pipeline`: the element pointers
(`0` when creation fails), in the order of the calls, and the results of
linking. -/
structure PipelineEnv where
  pipeline : Nat
  appsrc : Nat
  queue : Nat
  convert : Nat
  encoder : Nat
  h264parse : Nat
  pay : Nat
  webrtcbin : Nat
  link_many_ok : Bool
  srcpad : Nat
  sinkpad : Nat
  pad_link_ok : Bool

/-- `create_pipeline`: the result, the state afterwards and the entry record.
The three element pointers are stored into the state before any check. -/
def create_pipeline (env : PipelineEnv) (state : AppState) : Bool × AppState × List Effect :=
  let state1 : AppState :=
    { state with pipeline := env.pipeline, appsrc := env.appsrc, webrtcbin := env.webrtcbin }
  if state1.pipeline = 0 ∨ state1.appsrc = 0 ∨ env.queue = 0 ∨ env.convert = 0 ∨
      env.encoder = 0 ∨ env.h264parse = 0 ∨ env.pay = 0 ∨ state1.webrtcbin = 0 then
    (false, state1, [Effect.create_pipeline])
  else if env.link_many_ok = false then (false, state1, [Effect.create_pipeline])
  else if env.srcpad = 0 ∨ env.sinkpad = 0 then (false, state1, [Effect.create_pipeline])
  else if env.pad_link_ok = false then (false, state1, [Effect.create_pipeline])
  else (true, state1, [Effect.create_pipeline])

/-- `destroy_pipeline`. -/
def destroy_pipeline (state : AppState) : AppState × List Effect :=
  if state.pipeline = 0 then (state, [])
  else
    ({ state with pipeline := 0, appsrc := 0, webrtcbin := 0 },
      [Effect.gst_element_set_state state.pipeline .GST_STATE_NULL,
        Effect.gst_object_unref state.pipeline])

/-- What the libraries return inside one call of `start_streaming`: the
results inside `create_pipeline`, the result of `gst_element_set_state`, and
the thread identifier `pthread_create` stores. -/
structure StartEnv where
  elements : PipelineEnv
  set_state : GstStateChangeReturn
  thread : Nat

/-- The part of `start_streaming` after the pipeline exists. -/
def start_streaming_play (env : StartEnv) (state : AppState) : AppState × List Effect :=
  if env.set_state = .GST_STATE_CHANGE_FAILURE then
    (state, [Effect.gst_element_set_state state.pipeline .GST_STATE_PLAYING])
  else if state.render_running = false then
    ({ state with render_running := true, render_thread := env.thread },
      [Effect.gst_element_set_state state.pipeline .GST_STATE_PLAYING,
        Effect.pthread_create_render_thread_main])
  else (state, [Effect.gst_element_set_state state.pipeline .GST_STATE_PLAYING])

/-- `start_streaming`. -/
def start_streaming (env : StartEnv) (state : AppState) : AppState × List Effect :=
  if state.pipeline = 0 then
    let r := create_pipeline env.elements state
    if r.1 = false then (r.2.1, r.2.2)
    else
      let q := start_streaming_play env r.2.1
      (q.1, r.2.2 ++ q.2)
  else start_streaming_play env state

/-- `stop_streaming`. -/
def stop_streaming (state : AppState) : AppState × List Effect :=
  if state.render_running = true then
    let state1 : AppState := { state with render_running := false }
    let r := destroy_pipeline state1
    (r.1, Effect.pthread_join state.render_thread :: r.2)
  else destroy_pipeline state

/-! ## main.c: the producer thread next to `stop_streaming` -/

/-- Where the producer thread stands in `render_thread_main`: before
`renderer_init`, at the loop test `while (state->render_running)`, inside the
loop body, or returned. -/
inductive ProducerPc where
  | init
  | check
  | body
  | exited
  deriving DecidableEq

/-- The course one pass through the loop body of `render_thread_main` takes:
too early (`nanosleep`, `continue`), `gst_buffer_map` fails (`continue`), the
frame is pushed with `GST_FLOW_OK`, or the push fails (`break`). -/
inductive Tick where
  | sleep
  | map_failed
  | push_ok
  | push_failed

/-- One step of `render_thread_main`.  `init_ok` is the result of
`renderer_init`. -/
def render_thread_step (init_ok : Bool) (tick : Tick) (pc : ProducerPc) (state : AppState) :
    ProducerPc × AppState × List Effect :=
  match pc with
  | .init =>
    if init_ok = false then (.exited, { state with render_running := false }, [])
    else (.check, state, [])
  | .check => if state.render_running = true then (.body, state, []) else (.exited, state, [])
  | .body =>
    match tick with
    | .sleep => (.check, state, [])
    | .map_failed => (.check, state, [])
    | .push_ok => (.check, state, [Effect.gst_app_src_push_buffer state.appsrc])
    | .push_failed => (.exited, state, [Effect.gst_app_src_push_buffer state.appsrc])
  | .exited => (.exited, state, [])

/-- Where the caller of `stop_streaming` stands: at the test of
`render_running`, inside `pthread_join`, before `destroy_pipeline`, or
returned. -/
inductive StopPc where
  | test
  | join
  | destroy
  | returned
  deriving DecidableEq

/-- One step of `stop_streaming`.  `pthread_join` returns only once the
producer thread has returned; until then the step waits. -/
def stop_streaming_step (producer : ProducerPc) (pc : StopPc) (state : AppState) :
    StopPc × AppState × List Effect :=
  match pc with
  | .test =>
    if state.render_running = true then (.join, { state with render_running := false }, [])
    else (.destroy, state, [])
  | .join =>
    if producer = .exited then (.destroy, state, [Effect.pthread_join state.render_thread])
    else (.join, state, [])
  | .destroy => (.returned, (destroy_pipeline state).1, (destroy_pipeline state).2)
  | .returned => (.returned, state, [])

/-- The two threads together: the shared state, where each thread stands, and
the calls made so far. -/
structure Threads where
  state : AppState
  producer : ProducerPc
  stop : StopPc
  trace : List Effect

/-- Whose turn it is: the caller of `stop_streaming`, or the producer (with
what its step meets). -/
inductive Turn where
  | stop
  | producer (init_ok : Bool) (tick : Tick)

/-- One turn. -/
def threads_step (x : Threads) : Turn → Threads
  | .stop =>
    let r := stop_streaming_step x.producer x.stop x.state
    { x with stop := r.1, state := r.2.1, trace := x.trace ++ r.2.2 }
  | .producer init_ok tick =>
    let r := render_thread_step init_ok tick x.producer x.state
    { x with producer := r.1, state := r.2.1, trace := x.trace ++ r.2.2 }

/-- A schedule of turns. -/
def threads_run : Threads → List Turn → Threads
  | x, [] => x
  | x, t :: ts => threads_run (threads_step x t) ts

/-- The calls by which `destroy_pipeline` releases the pipeline. -/
def is_release : Effect → Bool
  | Effect.gst_element_set_state _ .GST_STATE_NULL => true
  | Effect.gst_object_unref _ => true
  | _ => false

/-- The call by which the producer feeds the pipeline. -/
def is_feed : Effect → Bool
  | Effect.gst_app_src_push_buffer _ => true
  | _ => false

/-- No feed follows a release in the trace. -/
def no_feed_after_release : List Effect → Bool
  | [] => true
  | e :: es => (!is_release e || es.all fun f => !is_feed f) && no_feed_after_release es

/-- What holds of the two threads at every moment once `stop_streaming` has
been called with the producer flag set. -/
def stop_inv (x : Threads) : Prop :=
  (x.stop = .test → x.state.render_running = false → x.producer = .exited) ∧
  (x.stop = .join → x.state.render_running = false) ∧
  (x.stop = .destroy → x.producer = .exited ∧ x.state.render_running = false) ∧
  (x.stop = .returned →
    x.producer = .exited ∧ x.state.render_running = false ∧ x.state.pipeline = 0) ∧
  (x.stop ≠ .returned → ∀ e ∈ x.trace, is_release e = false) ∧
  no_feed_after_release x.trace = true

/-- The producer thread taking the given steps one after the other, each
with the result `renderer_init` would give and the course its loop body
would take. -/
def render_thread_run :
    ProducerPc → AppState → List (Bool × Tick) → ProducerPc × AppState × List Effect
  | pc, state, [] => (pc, state, [])
  | pc, state, step :: steps =>
    ((render_thread_run (render_thread_step step.1 step.2 pc state).1
        (render_thread_step step.1 step.2 pc state).2.1 steps).1,
      (render_thread_run (render_thread_step step.1 step.2 pc state).1
        (render_thread_step step.1 step.2 pc state).2.1 steps).2.1,
      (render_thread_step step.1 step.2 pc state).2.2 ++
        (render_thread_run (render_thread_step step.1 step.2 pc state).1
          (render_thread_step step.1 step.2 pc state).2.1 steps).2.2)

/-- Whether the first step the producer takes is a failed `renderer_init`. -/
def init_fails_first : List (Bool × Tick) → Bool
  | (false, _) :: _ => true
  | _ => false

/-- One call of `start_streaming` followed by what the producer thread does
before the next call: if the call created the thread, `render_thread_main`
takes the steps `between`, starting at `renderer_init`. -/
def start_streaming_then_producer (env : StartEnv) (between : List (Bool × Tick))
    (state : AppState) : AppState × List Effect :=
  if Effect.pthread_create_render_thread_main ∈ (start_streaming env state).2 then
    ((render_thread_run .init (start_streaming env state).1 between).2.1,
      (start_streaming env state).2 ++
        (render_thread_run .init (start_streaming env state).1 between).2.2)
  else start_streaming env state

/-- Two calls of `start_streaming` with no `stop_streaming` in between: the
first call with its library results, the steps the producer thread takes in
the meantime, then the second call with its library results. -/
def start_streaming_twice (env1 env2 : StartEnv) (between : List (Bool × Tick))
    (state : AppState) : AppState × List Effect :=
  ((start_streaming env2 (start_streaming_then_producer env1 between state).1).1,
    (start_streaming_then_producer env1 between state).2 ++
      (start_streaming env2 (start_streaming_then_producer env1 between state).1).2)

/-- Library results with which every step of `start_streaming` succeeds. -/
def env_ok : StartEnv where
  elements :=
    { pipeline := 10, appsrc := 11, queue := 12, convert := 13, encoder := 14, h264parse := 15,
      pay := 16, webrtcbin := 17, link_many_ok := true, srcpad := 18, sinkpad := 19,
      pad_link_ok := true }
  set_state := .GST_STATE_CHANGE_ASYNC
  thread := 20

/-- Library results in which the pipeline is built but refuses to enter
`GST_STATE_PLAYING`. -/
def env_no_play : StartEnv :=
  { env_ok with set_state := .GST_STATE_CHANGE_FAILURE }

/-- Library results in which the `x264enc` element cannot be created (the
plugin is not installed) while every other element can. -/
def env_no_encoder : StartEnv :=
  { env_ok with elements := { env_ok.elements with encoder := 0 } }

/-- The inbound text `{"type":"offer","sdp":"v=0\r\n"}` of the unit test,
with the two escapes `\r` and `\n` spelled as they are on the wire. -/
def offer_message : List Char :=
  ['{', '"', 't', 'y', 'p', 'e', '"', ':', '"', 'o', 'f', 'f', 'e', 'r', '"', ',',
    '"', 's', 'd', 'p', '"', ':', '"', 'v', '=', '0', '\\', 'r', '\\', 'n', '"', '}']

/-- The processing of one inbound message together with the completion of
the promise `handle_offer` may have registered: `handle_ws_message`, then, if
`create-answer` was emitted, `on_answer_created` with the reply. -/
def handle_ws_message_then_reply (env : OfferEnv) (item : Nat) (answer : Option (List Char))
    (state : AppState) (message : List Char) : AppState × List Effect :=
  let r := handle_ws_message env state message
  if Effect.g_signal_emit_by_name state.webrtcbin .create_answer ∈ r.2 then
    let q := on_answer_created item answer r.1
    (q.1, r.2 ++ q.2)
  else r

/-- The inbound text `{"type":"bye"}`. -/
def bye_message : List Char :=
  ['{', '"', 't', 'y', 'p', 'e', '"', ':', '"', 'b', 'y', 'e', '"', '}']

/-- One step of a run of the outbound queue: a producer calls
`ws_queue_message` (with the address its `calloc` returned), or the network
thread serves one writable callback. -/
inductive QueueOp where
  | push (item : Nat) (msg : List Char) (len : Nat)
  | pop (wsi : Nat)

/-- Run a sequence of queue steps, collecting the calls made. -/
def run_queue : AppState → List QueueOp → AppState × List Effect
  | state, [] => (state, [])
  | state, QueueOp.push item msg len :: ops =>
    let r := ws_queue_message item state msg len
    let rest := run_queue r.1 ops
    (rest.1, r.2 ++ rest.2)
  | state, QueueOp.pop wsi :: ops =>
    let r := ws_callback wsi .LWS_CALLBACK_SERVER_WRITEABLE state
    let rest := run_queue r.2.1 ops
    (rest.1, r.2.2 ++ rest.2)

/-- The contract of `calloc` along a run: every address it returns is non-null
and not allocated at that moment. -/
def calloc_ok : AppState → List QueueOp → Bool
  | _, [] => true
  | state, QueueOp.push item msg len :: ops =>
    decide (item ≠ 0) && !state.live item &&
      calloc_ok (ws_queue_message item state msg len).1 ops
  | state, QueueOp.pop wsi :: ops =>
    calloc_ok (ws_callback wsi .LWS_CALLBACK_SERVER_WRITEABLE state).2.1 ops

/-- The messages handed to `ws_queue_message`, in call order. -/
def pushed : List QueueOp → List (List Char × Nat)
  | [] => []
  | QueueOp.push _ msg len :: ops => (msg, len) :: pushed ops
  | QueueOp.pop _ :: ops => pushed ops

/-- The messages handed to `lws_write`, in call order. -/
def written : List Effect → List (List Char × Nat)
  | [] => []
  | Effect.lws_write _ data len :: es => (data, len) :: written es
  | _ :: es => written es

/-- The nodes reached from `p` by following `next` are exactly `addrs`, and
the last of them has a null `next`. -/
def chain (heap : Nat → WsMessage) : Nat → List Nat → Prop
  | p, [] => p = 0
  | p, a :: rest => p = a ∧ a ≠ 0 ∧ chain heap (heap a).next rest

/-- Representation invariant of the queue: `ws_head` starts a chain of
distinct allocated nodes and `ws_tail` is its last node (null when empty). -/
def queue_inv (state : AppState) (addrs : List Nat) : Prop :=
  chain state.heap state.ws_head addrs ∧ addrs.Nodup ∧ (∀ a ∈ addrs, state.live a = true) ∧
    state.ws_tail = addrs.getLastD 0

/-- The messages stored in the nodes `addrs`. -/
def contents (heap : Nat → WsMessage) (addrs : List Nat) : List (List Char × Nat) :=
  addrs.map fun a => ((heap a).data, (heap a).len)

/-- An `AppState` as `main` leaves it before the first connection: everything
zero except the configuration defaults and the running flag. -/
def initial_state : AppState where
  width := 1280
  height := 720
  fps := 30
  bitrate_kbps := 2500
  port := 8080
  stun_server := none
  pipeline := 0
  appsrc := 0
  webrtcbin := 0
  main_loop := 1
  main_context := 2
  lws_context := 3
  client_wsi := 0
  ws_thread := 4
  render_thread := 0
  ws_head := 0
  ws_tail := 0
  running := true
  render_running := false
  heap := fun _ => { data := [], len := 0, next := 0 }
  live := fun _ => false

/-! ## main.c: ready message and disconnect -/

/-- `ws_send_ready`. -/
def ws_send_ready (item : Nat) (state : AppState) : AppState × List Effect :=
  ws_queue_message item state
    ['{', '"', 't', 'y', 'p', 'e', '"', ':', '"', 'r', 'e', 'a', 'd', 'y', '"', '}']
    (strlen ['{', '"', 't', 'y', 'p', 'e', '"', ':', '"', 'r', 'e', 'a', 'd', 'y', '"', '}'])

/-- The loop of `ws_drain_queue` from `current`: every node met is freed and
the walk follows its `next`.  `fuel` bounds the number of nodes; `none` means
the bound was too small. -/
def ws_drain_loop (heap : Nat → WsMessage) : Nat → (Nat → Bool) → Nat → Option (Nat → Bool)
  | 0, live, current => if current = 0 then some live else none
  | fuel + 1, live, current =>
    if current = 0 then some live
    else ws_drain_loop heap fuel (live_store live current false) (heap current).next

/-- `ws_drain_queue`: the queue is detached under the lock, then its nodes
are freed. -/
def ws_drain_queue (fuel : Nat) (state : AppState) : Option AppState :=
  match ws_drain_loop state.heap fuel state.live state.ws_head with
  | none => none
  | some live => some { state with ws_head := 0, ws_tail := 0, live := live }

/-- `handle_client_closed`. -/
def handle_client_closed (fuel : Nat) (state : AppState) : Option (AppState × List Effect) :=
  match ws_drain_queue fuel (stop_streaming state).1 with
  | none => none
  | some state1 => some (state1, (stop_streaming state).2)

/-! ## Further example inputs -/

/-- A state with peer 41 admitted and the messages `a`, `b` queued in the
nodes 7 and 9. -/
def admitted_state : AppState :=
  { (run_queue initial_state [.push 7 ['a'] 1, .push 9 ['b'] 1]).1 with client_wsi := 41 }

/-- The image of one character under the reference encoding: quote,
backslash, LF, CR and TAB become a backslash followed by `"`, `\`, `n`, `r`,
`t`; every other character is kept. -/
def escape_image (c : Char) : List Char :=
  if c = '"' then ['\\', '"']
  else if c = '\\' then ['\\', '\\']
  else if c = '\n' then ['\\', 'n']
  else if c = '\r' then ['\\', 'r']
  else if c = '\t' then ['\\', 't']
  else [c]

/-- The reference encoding of a text: the images of its characters, in order. -/
def reference_escape (s : List Char) : List Char :=
  s.flatMap escape_image

/-- The key between double quotes, `"<key>"`. -/
def quoted (key : List Char) : List Char :=
  '"' :: (key ++ ['"'])

/-- The text `json` is `pre ++ needle ++ post`, and no occurrence of `needle`
starts earlier: `pre`, `post` delimit the first occurrence. -/
def first_occurrence (needle json pre post : List Char) : Prop :=
  json = pre ++ (needle ++ post) ∧
    ∀ pre' post' : List Char, json = pre' ++ (needle ++ post') → pre.length ≤ pre'.length

theorem cstr_of_nul_free (s : List Char) (h : NUL ∉ s) : cstr s = s := by
  induction s with
  | nil => rfl
  | cons c p ih =>
    have hc : c ≠ NUL := fun e => h (by simp [e])
    have hp : NUL ∉ p := fun m => h (List.mem_cons_of_mem _ m)
    simp [cstr, hc, ih hp]

theorem nul_not_mem_cstr (s : List Char) : NUL ∉ cstr s := by
  induction s with
  | nil => simp [cstr]
  | cons c p ih =>
    by_cases hc : c = NUL
    · simp [cstr, hc]
    · simp only [cstr, hc, if_false, List.mem_cons, not_or]
      exact ⟨fun e => hc e.symm, ih⟩

theorem cstr_idem (s : List Char) : cstr (cstr s) = cstr s :=
  cstr_of_nul_free _ (nul_not_mem_cstr s)

theorem nul_not_mem_json_escape (s : List Char) : NUL ∉ json_escape s := by
  induction s with
  | nil => simp [json_escape]
  | cons c p ih =>
    have hq : NUL ≠ '\\' := by decide
    have h1 : NUL ≠ '"' := by decide
    have h2 : NUL ≠ 'n' := by decide
    have h3 : NUL ≠ 'r' := by decide
    have h4 : NUL ≠ 't' := by decide
    unfold json_escape
    split_ifs with a b c1 d e f
    · simp
    all_goals simp only [List.mem_cons, not_or]
    all_goals first
      | exact ⟨hq, h1, ih⟩
      | exact ⟨hq, hq, ih⟩
      | exact ⟨hq, h2, ih⟩
      | exact ⟨hq, h3, ih⟩
      | exact ⟨hq, h4, ih⟩
      | exact ⟨fun e => a e.symm, ih⟩

/-- The buffer `json_escape` allocates from its first loop is exactly filled
by its second loop. -/
theorem json_escape_length (s : List Char) : (json_escape s).length = json_escape_len s := by
  induction s with
  | nil => rfl
  | cons c p ih =>
    unfold json_escape json_escape_len
    split_ifs <;> simp_all

theorem json_unescape_loop_cons_of_ne (c : Char) (l : List Char) (h : c ≠ '\\') :
    json_unescape_loop (c :: l) = c :: json_unescape_loop l := by
  cases l with
  | nil => simp [json_unescape_loop]
  | cons d rest => simp [json_unescape_loop, h]

theorem json_unescape_loop_escape (s : List Char) (h : NUL ∉ s) :
    json_unescape_loop (json_escape s) = s := by
  induction s with
  | nil => simp [json_escape, json_unescape_loop]
  | cons c p ih =>
    have hc : c ≠ NUL := fun e => h (by simp [e])
    have hp : NUL ∉ p := fun m => h (List.mem_cons_of_mem _ m)
    unfold json_escape
    split_ifs with a b c1 d e f
    · exact absurd a hc
    · simp [json_unescape_loop, unescape_char, ih hp, b]
    · simp [json_unescape_loop, unescape_char, ih hp, c1]
    · simp [json_unescape_loop, unescape_char, ih hp, d]
    · simp [json_unescape_loop, unescape_char, ih hp, e]
    · simp [json_unescape_loop, unescape_char, ih hp, f]
    · rw [json_unescape_loop_cons_of_ne c _ c1, ih hp]

/-! ## Lemmas on the outbound queue -/

theorem chain_congr (heap heap' : Nat → WsMessage) (addrs : List Nat) (p : Nat)
    (h : ∀ a ∈ addrs, heap' a = heap a) : chain heap' p addrs ↔ chain heap p addrs := by
  induction addrs generalizing p with
  | nil => simp [chain]
  | cons a rest ih =>
    have ha : heap' a = heap a := h a (by simp)
    have hr : ∀ b ∈ rest, heap' b = heap b := fun b hb => h b (List.mem_cons_of_mem _ hb)
    simp only [chain, ha, ih _ hr]

theorem contents_congr (heap heap' : Nat → WsMessage) (addrs : List Nat)
    (h : ∀ a ∈ addrs, (heap' a).data = (heap a).data ∧ (heap' a).len = (heap a).len) :
    contents heap' addrs = contents heap addrs := by
  unfold contents
  apply List.map_congr_left
  intro a ha
  rw [(h a ha).1, (h a ha).2]

theorem chain_head_ne_zero (heap : Nat → WsMessage) (p a : Nat) (rest : List Nat)
    (h : chain heap p (a :: rest)) : p ≠ 0 := by
  obtain ⟨h1, h2, _⟩ := h
  rw [h1]; exact h2

theorem chain_zero_not_mem (heap : Nat → WsMessage) (addrs : List Nat) (p : Nat)
    (h : chain heap p addrs) : (0 : Nat) ∉ addrs := by
  induction addrs generalizing p with
  | nil => simp
  | cons a rest ih =>
    obtain ⟨_, h2, h3⟩ := h
    intro hz
    rcases List.mem_cons.mp hz with hz | hz
    · exact h2 hz.symm
    · exact ih _ h3 hz

/-- Appending a node whose `next` is null to a chain, after the old last node
has been linked to it. -/
theorem chain_append (heap : Nat → WsMessage) (item : Nat) (m : WsMessage) (hm : m.next = 0)
    (hitem : item ≠ 0) (addrs : List Nat) (p : Nat) (hnd : addrs.Nodup)
    (hfresh : item ∉ addrs) (hc : chain heap p addrs) (hne : addrs ≠ []) :
    chain
      (heap_store (heap_store heap item m) (addrs.getLastD 0)
        { heap_store heap item m (addrs.getLastD 0) with next := item })
      p (addrs ++ [item]) := by
  induction addrs generalizing p with
  | nil => exact absurd rfl hne
  | cons a rest ih =>
    obtain ⟨h1, h2, h3⟩ := hc
    have hai : a ≠ item := fun e => hfresh (by simp [e])
    have hia : item ≠ a := fun e => hai e.symm
    have hir : item ∉ rest := fun hm' => hfresh (List.mem_cons_of_mem _ hm')
    have har : a ∉ rest := (List.nodup_cons.mp hnd).1
    have hndr : rest.Nodup := (List.nodup_cons.mp hnd).2
    cases rest with
    | nil =>
      simp only [chain] at h3
      simp [chain, heap_store, h1, h2, hitem, hia, hm, List.getLastD]
    | cons b rest' =>
      have hlast : (a :: b :: rest').getLastD 0 = (b :: rest').getLastD 0 := by
        simp [List.getLastD]
      have hmem : (b :: rest').getLastD 0 ∈ b :: rest' := by
        rw [List.getLastD_eq_getLast?, List.getLast?_eq_getLast _ (by simp)]
        exact List.getLast_mem _
      have hal : a ≠ (b :: rest').getLastD 0 := fun e => har (e ▸ hmem)
      have ih' := ih (heap a).next hndr hir h3 (by simp)
      rw [hlast]
      refine ⟨h1, h2, ?_⟩
      have : (heap_store (heap_store heap item m) ((b :: rest').getLastD 0)
          { heap_store heap item m ((b :: rest').getLastD 0) with next := item } a).next
          = (heap a).next := by
        unfold heap_store
        rw [if_neg hal, if_neg hai]
      rw [this]
      exact ih'

theorem getLastD_append_singleton (l : List Nat) (x d : Nat) : (l ++ [x]).getLastD d = x := by
  rw [List.getLastD_eq_getLast?, List.getLast?_append]
  simp

theorem getLastD_mem (l : List Nat) (d : Nat) (h : l ≠ []) : l.getLastD d ∈ l := by
  rw [List.getLastD_eq_getLast?, List.getLast?_eq_getLast _ h]
  exact List.getLast_mem _

/-- `ws_queue_message` appends the new node to the represented sequence. -/
theorem ws_queue_message_inv (item : Nat) (state : AppState) (msg : List Char) (len : Nat)
    (addrs : List Nat) (hinv : queue_inv state addrs) (h0 : item ≠ 0)
    (hfree : state.live item = false) :
    queue_inv (ws_queue_message item state msg len).1 (addrs ++ [item]) ∧
      contents (ws_queue_message item state msg len).1.heap (addrs ++ [item]) =
        contents state.heap addrs ++ [(msg, len)] ∧
      written (ws_queue_message item state msg len).2 = [] := by
  obtain ⟨hc, hnd, hlive, htail⟩ := hinv
  have hfresh : item ∉ addrs := fun hm => by
    have := hlive item hm
    rw [hfree] at this
    exact Bool.noConfusion this
  have hw : written (ws_queue_message item state msg len).2 = [] := by
    unfold ws_queue_message
    by_cases h1 : state.client_wsi ≠ 0 <;> by_cases h2 : state.lws_context ≠ 0 <;>
      simp [h1, h2, written]
  refine ⟨?_, ?_, hw⟩
  · cases addrs with
    | nil =>
      have ht : state.ws_tail = 0 := by simpa [List.getLastD] using htail
      simp only [ws_queue_message, ht, ne_eq, not_true_eq_false, if_false, List.nil_append]
      refine ⟨?_, by simp, ?_, ?_⟩
      · simp [chain, heap_store, h0]
      · intro a ha
        simp only [List.mem_singleton] at ha
        simp [live_store, ha]
      · simp [List.getLastD]
    | cons a rest =>
      have hmem := getLastD_mem (a :: rest) 0 (by simp)
      have ht : state.ws_tail ≠ 0 := by
        rw [htail]
        intro e
        exact chain_zero_not_mem _ _ _ hc (e ▸ hmem)
      simp only [ws_queue_message, ht, ne_eq, not_false_eq_true, if_true]
      refine ⟨?_, ?_, ?_, ?_⟩
      · rw [htail]
        exact chain_append state.heap item _ rfl h0 (a :: rest) state.ws_head hnd hfresh hc
          (by simp)
      · exact List.Nodup.append hnd (by simp) (by simpa using hfresh)
      · intro b hb
        rcases List.mem_append.mp hb with hb | hb
        · have hbi : b ≠ item := fun e => hfresh (e ▸ hb)
          simp [live_store, hbi, hlive b hb]
        · simp only [List.mem_singleton] at hb
          simp [live_store, hb]
      · exact (getLastD_append_singleton _ _ _).symm
  · unfold contents
    rw [List.map_append]
    congr 1
    · apply List.map_congr_left
      intro b hb
      have hbi : b ≠ item := fun e => hfresh (e ▸ hb)
      unfold ws_queue_message
      by_cases ht : state.ws_tail ≠ 0
      · by_cases hbt : b = state.ws_tail
        · have hti : state.ws_tail ≠ item := hbt ▸ hbi
          simp [ht, heap_store, hbi, hbt, hti]
        · simp [ht, heap_store, hbi, hbt]
      · simp [ht, heap_store, hbi]
    · unfold ws_queue_message
      by_cases ht : state.ws_tail ≠ 0
      · by_cases hit : item = state.ws_tail
        · simp [ht, heap_store, hit]
        · simp [ht, heap_store, hit]
      · simp [ht, heap_store]

/-- One writable callback removes the first node of the represented sequence
and writes it, or does nothing when the sequence is empty. -/
theorem ws_callback_writeable_inv (wsi : Nat) (state : AppState) (addrs : List Nat)
    (hinv : queue_inv state addrs) :
    ∃ addrs', queue_inv (ws_callback wsi .LWS_CALLBACK_SERVER_WRITEABLE state).2.1 addrs' ∧
      contents state.heap addrs =
        written (ws_callback wsi .LWS_CALLBACK_SERVER_WRITEABLE state).2.2 ++
          contents (ws_callback wsi .LWS_CALLBACK_SERVER_WRITEABLE state).2.1.heap addrs' := by
  obtain ⟨hc, hnd, hlive, htail⟩ := hinv
  cases addrs with
  | nil =>
    have hh : state.ws_head = 0 := hc
    refine ⟨[], ?_, ?_⟩
    · simp only [ws_callback, hh, ne_eq, not_true_eq_false, if_false]
      exact ⟨hc, hnd, hlive, htail⟩
    · simp [ws_callback, hh, written, contents]
  | cons a rest =>
    obtain ⟨h1, h2, h3⟩ := hc
    have hh : state.ws_head ≠ 0 := h1 ▸ h2
    have har : a ∉ rest := (List.nodup_cons.mp hnd).1
    have hndr : rest.Nodup := (List.nodup_cons.mp hnd).2
    have hliver : ∀ b ∈ rest, live_store state.live a false b = true := by
      intro b hb
      have hba : b ≠ a := fun e => har (e ▸ hb)
      simp [live_store, hba, hlive b (List.mem_cons_of_mem _ hb)]
    refine ⟨rest, ?_, ?_⟩
    · cases rest with
      | nil =>
        have hn : (state.heap a).next = 0 := h3
        simp only [ws_callback, h1, h2, ne_eq, not_false_eq_true, if_true, hn]
        exact ⟨rfl, hndr, hliver, rfl⟩
      | cons b rest' =>
        have hn : (state.heap a).next ≠ 0 := chain_head_ne_zero _ _ _ _ h3
        simp only [ws_callback, h1, h2, ne_eq, not_false_eq_true, if_true, hn, if_false]
        refine ⟨h3, hndr, hliver, ?_⟩
        show state.ws_tail = _
        rw [htail]
        simp [List.getLastD]
    · by_cases hn : (state.heap a).next = 0
      · simp [ws_callback, h1, h2, hn, written, contents]
      · simp [ws_callback, h1, h2, hn, written, contents]

/-- Along a run that respects the `calloc` contract, the messages represented
at the start followed by the pushed ones are the written ones followed by the
messages still represented at the end. -/
theorem run_queue_inv (ops : List QueueOp) (state : AppState) (addrs : List Nat)
    (hinv : queue_inv state addrs) (hok : calloc_ok state ops = true) :
    ∃ addrs', queue_inv (run_queue state ops).1 addrs' ∧
      contents state.heap addrs ++ pushed ops =
        written (run_queue state ops).2 ++ contents (run_queue state ops).1.heap addrs' := by
  induction ops generalizing state addrs with
  | nil => exact ⟨addrs, hinv, by simp [run_queue, pushed, written]⟩
  | cons op ops ih =>
    cases op with
    | push item msg len =>
      simp only [calloc_ok, Bool.and_eq_true, decide_eq_true_eq, Bool.not_eq_true'] at hok
      obtain ⟨⟨h0, hfree⟩, hrest⟩ := hok
      obtain ⟨hinv1, hcont, hw⟩ := ws_queue_message_inv item state msg len addrs hinv h0 hfree
      obtain ⟨addrs', hinv', heq⟩ := ih _ _ hinv1 hrest
      refine ⟨addrs', hinv', ?_⟩
      have hwr : ∀ (l1 l2 : List Effect), written (l1 ++ l2) = written l1 ++ written l2 := by
        intro l1 l2
        induction l1 with
        | nil => rfl
        | cons e l1 ih1 => cases e <;> simp [written, ih1]
      simp only [run_queue, pushed, hwr, hw, List.nil_append]
      rw [← heq, hcont]
      simp
    | pop wsi =>
      simp only [calloc_ok] at hok
      obtain ⟨addrs1, hinv1, hcont⟩ := ws_callback_writeable_inv wsi state addrs hinv
      obtain ⟨addrs', hinv', heq⟩ := ih _ _ hinv1 hok
      refine ⟨addrs', hinv', ?_⟩
      have hwr : ∀ (l1 l2 : List Effect), written (l1 ++ l2) = written l1 ++ written l2 := by
        intro l1 l2
        induction l1 with
        | nil => rfl
        | cons e l1 ih1 => cases e <;> simp [written, ih1]
      simp only [run_queue, pushed, hwr]
      rw [hcont, List.append_assoc, heq, List.append_assoc]

/-! ## Lemmas on the JSON accessors -/

theorem unescape_char_ne_nul (d : Char) (h : d ≠ NUL) : unescape_char d ≠ NUL := by
  unfold unescape_char
  split_ifs
  · decide
  · decide
  · decide
  · decide
  · decide
  · exact h

theorem nul_not_mem_json_unescape_loop (l : List Char) (h : NUL ∉ l) :
    NUL ∉ json_unescape_loop l := by
  induction l using json_unescape_loop.induct with
  | case1 => simp [json_unescape_loop]
  | case2 c => simpa [json_unescape_loop] using h
  | case3 d rest ih =>
    have hd : d ≠ NUL := fun e => h (by simp [e])
    have hrest : NUL ∉ rest := fun m => h (by simp [m])
    simp only [json_unescape_loop, if_true, List.mem_cons, not_or]
    exact ⟨fun e => unescape_char_ne_nul d hd e.symm, ih hrest⟩
  | case4 c d rest hc ih =>
    have hc' : c ≠ NUL := fun e => h (by simp [e])
    have hrest : NUL ∉ d :: rest := fun m => h (List.mem_cons_of_mem _ m)
    simp only [json_unescape_loop, hc, if_false, List.mem_cons, not_or]
    exact ⟨fun e => hc' e.symm, by simpa using ih hrest⟩

theorem nul_not_mem_json_unescape (l : List Char) : NUL ∉ json_unescape l :=
  nul_not_mem_json_unescape_loop _ (nul_not_mem_cstr l)

/-- A string returned by `json_get_string` contains no NUL. -/
theorem nul_not_mem_json_get_string (json key v : List Char)
    (h : json_get_string json key = some v) : NUL ∉ v := by
  unfold json_get_string at h
  simp only at h
  split at h
  · exact absurd h (by simp)
  · split at h
    · exact absurd h (by simp)
    · split at h
      · exact absurd h (by simp)
      · split_ifs at h
        simp only [Option.some.injEq] at h
        rw [← h]
        exact nul_not_mem_json_unescape _

/-! ## Lemmas on the candidate message -/

theorem toNat_ofNat_digit (k : Nat) (hk : k < 10) : (Char.ofNat (48 + k)).toNat = 48 + k := by
  interval_cases k <;> rfl

theorem is_digit_ofNat (n : Nat) : is_digit (Char.ofNat (48 + n % 10)) := by
  have h : n % 10 < 10 := Nat.mod_lt _ (by decide)
  unfold is_digit
  rw [toNat_ofNat_digit _ h]
  omega

theorem atoi_digits_append (l : List Char) (a : Nat) (rest : List Char)
    (h : ∀ c ∈ l, is_digit c) :
    atoi_digits (l ++ rest) a = atoi_digits rest (digits_value a l) := by
  induction l generalizing a with
  | nil => rfl
  | cons c l ih =>
    have hc : 48 ≤ c.toNat ∧ c.toNat ≤ 57 := h c (by simp)
    have hl : ∀ d ∈ l, is_digit d := fun d hd => h d (List.mem_cons_of_mem _ hd)
    simp only [List.cons_append, atoi_digits, hc, and_self, if_true, digits_value, List.foldl_cons]
    exact ih _ hl

theorem digits_value_weight (l : List Char) (a : Nat) :
    digits_value a l = a * 10 ^ l.length + digits_value 0 l := by
  induction l generalizing a with
  | nil => simp [digits_value]
  | cons c l ih =>
    have e1 : digits_value a (c :: l) = digits_value (a * 10 + (c.toNat - 48)) l := rfl
    have e2 : digits_value 0 (c :: l) = digits_value (0 * 10 + (c.toNat - 48)) l := rfl
    rw [e1, e2, ih (a * 10 + (c.toNat - 48)), ih (0 * 10 + (c.toNat - 48))]
    simp only [List.length_cons, pow_succ]
    ring

theorem dec_digits_core_spec (fuel : Nat) : ∀ (n : Nat) (acc : List Char), n < fuel →
    (∀ c ∈ acc, is_digit c) →
    (∀ c ∈ dec_digits_core fuel n acc, is_digit c) ∧
      dec_digits_core fuel n acc ≠ [] ∧
      digits_value 0 (dec_digits_core fuel n acc) = n * 10 ^ acc.length + digits_value 0 acc := by
  induction fuel with
  | zero => intro n acc h; omega
  | succ fuel ih =>
    intro n acc hn hacc
    have hd := is_digit_ofNat n
    have hacc' : ∀ c ∈ Char.ofNat (48 + n % 10) :: acc, is_digit c := by
      intro c hc
      rcases List.mem_cons.mp hc with hc | hc
      · rw [hc]; exact hd
      · exact hacc c hc
    have hv : digits_value 0 (Char.ofNat (48 + n % 10) :: acc) =
        (n % 10) * 10 ^ acc.length + digits_value 0 acc := by
      have e : digits_value 0 (Char.ofNat (48 + n % 10) :: acc) =
          digits_value (0 * 10 + ((Char.ofNat (48 + n % 10)).toNat - 48)) acc := rfl
      rw [e, toNat_ofNat_digit _ (Nat.mod_lt _ (by decide)), digits_value_weight]
      simp
    unfold dec_digits_core
    by_cases h10 : n / 10 = 0
    · rw [if_pos h10]
      refine ⟨hacc', by simp, ?_⟩
      rw [hv]
      have : n % 10 = n := by omega
      rw [this]
    · rw [if_neg h10]
      have hlt : n / 10 < fuel := by omega
      obtain ⟨k1, k2, k3⟩ := ih (n / 10) _ hlt hacc'
      refine ⟨k1, k2, ?_⟩
      rw [k3, hv]
      simp only [List.length_cons, pow_succ]
      have : n = 10 * (n / 10) + n % 10 := (Nat.div_add_mod n 10).symm
      nth_rewrite 3 [this]
      ring

theorem is_digit_not_special (c : Char) (h : is_digit c) :
    isspace c = false ∧ c ≠ '-' ∧ c ≠ '+' ∧ c ≠ ' ' ∧ c ≠ '\t' ∧ c ≠ NUL ∧ c ≠ ':' := by
  unfold is_digit at h
  refine ⟨?_, ?_, ?_, ?_, ?_, ?_, ?_⟩
  · unfold isspace
    simp only [Bool.or_eq_false_iff, decide_eq_false_iff_not]
    refine ⟨⟨⟨⟨⟨?_, ?_⟩, ?_⟩, ?_⟩, ?_⟩, ?_⟩ <;>
      · intro e
        rw [e] at h
        revert h
        decide
  all_goals
    intro e
    rw [e] at h
    revert h
    decide

/-- On the decimal text of an `int` value that is not negative, followed by
a closing brace, `atoi` returns the value. -/

theorem atoi_fmt_d (m : Int) (h0 : 0 ≤ m) (h1 : m ≤ 2147483647) (rest : List Char) :
    atoi (skip_blanks (fmt_d m ++ '}' :: rest)) = m := by
  have hfmt : fmt_d m = dec_digits_core (m.natAbs + 1) m.natAbs [] := by
    unfold fmt_d
    rw [if_neg (by omega)]
  obtain ⟨hdig, hne, hval⟩ := dec_digits_core_spec (m.natAbs + 1) m.natAbs [] (by omega)
    (fun c hc => absurd hc (List.not_mem_nil c))
  rw [← hfmt] at hdig hne hval
  obtain ⟨d, t, hdt⟩ := List.exists_cons_of_ne_nil hne
  have hd : is_digit d := hdig d (by rw [hdt]; simp)
  obtain ⟨s1, s2, s3, s4, s5, _, _⟩ := is_digit_not_special d hd
  have hskip : skip_blanks (fmt_d m ++ '}' :: rest) = fmt_d m ++ '}' :: rest := by
    rw [hdt]
    simp [skip_blanks, s4, s5]
  have hspace : skip_space (fmt_d m ++ '}' :: rest) = fmt_d m ++ '}' :: rest := by
    rw [hdt]
    simp [skip_space, s1]
  have hdigits : atoi_digits (fmt_d m ++ '}' :: rest) 0 = m.natAbs := by
    rw [atoi_digits_append _ _ _ hdig, hval]
    have hb : ¬ (48 ≤ ('}' : Char).toNat ∧ ('}' : Char).toNat ≤ 57) := by decide
    simp [atoi_digits, hb, digits_value]
  have hvalue : atoi_value (fmt_d m ++ '}' :: rest) = m := by
    unfold atoi_value
    rw [hspace]
    split
    · rename_i t' heq
      rw [hdt] at heq
      simp only [List.cons_append, List.cons.injEq] at heq
      exact absurd heq.1 s2
    · rename_i t' heq
      rw [hdt] at heq
      simp only [List.cons_append, List.cons.injEq] at heq
      exact absurd heq.1 s3
    · rw [hdigits]
      omega
  rw [hskip]
  unfold atoi
  rw [hvalue]
  simp only
  omega

theorem scan_raw_json_escape (c rest : List Char) :
    scan_raw (json_escape c ++ '"' :: rest) false = json_escape c := by
  induction c with
  | nil => simp [json_escape, scan_raw]
  | cons x p ih =>
    unfold json_escape
    split_ifs with a b c1 d e f
    · simp [scan_raw]
    · simp [scan_raw, ih]
    · simp [scan_raw, ih]
    · simp [scan_raw, ih]
    · simp [scan_raw, ih]
    · simp [scan_raw, ih]
    · simp [scan_raw, ih, b, c1]

/-- If a word without quote and backslash, followed by a quote, starts the
escaped text followed by a quote, then the escaped text is that word. -/

theorem json_escape_eq_of_prefix (w : List Char) (hw : ∀ a ∈ w, a ≠ '"' ∧ a ≠ '\\') :
    ∀ (c R : List Char), (w ++ ['"']).isPrefixOf (json_escape c ++ '"' :: R) = true →
      json_escape c = w := by
  induction w with
  | nil =>
    intro c R h
    cases c with
    | nil => simp [json_escape]
    | cons x p =>
      unfold json_escape at h ⊢
      split_ifs at h ⊢ with a b c1 d e f
      · rfl
      all_goals simp [List.isPrefixOf] at h
      exact absurd h.symm b
  | cons a w ih =>
    intro c R h
    have ha := hw a (by simp)
    have hw' : ∀ b ∈ w, b ≠ '"' ∧ b ≠ '\\' := fun b hb => hw b (List.mem_cons_of_mem _ hb)
    cases c with
    | nil =>
      simp [json_escape, List.isPrefixOf] at h
      exact absurd h.1 ha.1
    | cons x p =>
      unfold json_escape at h ⊢
      split_ifs at h ⊢ with k1 k2 k3 k4 k5 k6
      · simp [List.isPrefixOf] at h
        exact absurd h.1 ha.1
      · simp [List.isPrefixOf] at h
        exact absurd h.1 ha.2
      · simp [List.isPrefixOf] at h
        exact absurd h.1 ha.2
      · simp [List.isPrefixOf] at h
        exact absurd h.1 ha.2
      · simp [List.isPrefixOf] at h
        exact absurd h.1 ha.2
      · simp [List.isPrefixOf] at h
        exact absurd h.1 ha.2
      · simp only [List.cons_append, List.isPrefixOf, Bool.and_eq_true, beq_iff_eq] at h
        rw [← h.1, ih hw' p R h.2]

theorem find_colon_cons_of_ne (x : Char) (t : List Char) (hx : x ≠ '"') :
    find_colon (x :: t) = find_colon t := by
  have hx' : ¬ ('"' = x) := fun e => hx e.symm
  simp [find_colon, strstr, mline_needle, List.isPrefixOf, hx']

theorem find_colon_quote_cons_of_ne (y : Char) (t : List Char) (hy : y ≠ 's') :
    find_colon ('"' :: y :: t) = find_colon (y :: t) := by
  have hy' : ¬ ('s' = y) := fun e => hy e.symm
  unfold find_colon
  rw [strstr, if_neg (by simp [mline_needle, List.isPrefixOf, hy'])]

theorem find_colon_ice_tail (m : Int) :
    find_colon (ice_tail m) = some (':' :: (fmt_d m ++ ['}'])) := by
  simp [find_colon, strstr, mline_needle, ice_tail, List.isPrefixOf, strchr]

theorem find_colon_quote (m : Int) (c : List Char) (X : List Char)
    (hX : X = ':' :: (fmt_d m ++ ['}']))
    (h : find_colon (json_escape c ++ ice_tail m) = some X) :
    find_colon ('"' :: (json_escape c ++ ice_tail m)) = some X := by
  by_cases hp : mline_needle.isPrefixOf ('"' :: (json_escape c ++ ice_tail m)) = true
  · have hp' : (['s', 'd', 'p', 'M', 'L', 'i', 'n', 'e', 'I', 'n', 'd', 'e', 'x'] ++ ['"']).isPrefixOf
        (json_escape c ++ '"' :: ([',', '"', 's', 'd', 'p', 'M', 'L', 'i', 'n', 'e', 'I', 'n',
          'd', 'e', 'x', '"', ':'] ++ (fmt_d m ++ ['}']))) = true := by
      simpa [mline_needle, ice_tail, List.isPrefixOf] using hp
    have he := json_escape_eq_of_prefix _ (by decide) c _ hp'
    rw [he, hX]
    simp [find_colon, strstr, mline_needle, ice_tail, List.isPrefixOf, strchr]
  · rw [← h]
    unfold find_colon
    rw [strstr, if_neg hp]

theorem find_colon_json_escape (m : Int) (c : List Char) :
    find_colon (json_escape c ++ ice_tail m) = some (':' :: (fmt_d m ++ ['}'])) := by
  induction c with
  | nil => simpa [json_escape] using find_colon_ice_tail m
  | cons x p ih =>
    unfold json_escape
    split_ifs with a b c1 d e f
    · simpa using find_colon_ice_tail m
    · rw [List.cons_append, find_colon_cons_of_ne _ _ (by decide), List.cons_append]
      exact find_colon_quote m p _ rfl ih
    · rw [List.cons_append, find_colon_cons_of_ne _ _ (by decide), List.cons_append,
        find_colon_cons_of_ne _ _ (by decide)]
      exact ih
    · rw [List.cons_append, find_colon_cons_of_ne _ _ (by decide), List.cons_append,
        find_colon_cons_of_ne _ _ (by decide)]
      exact ih
    · rw [List.cons_append, find_colon_cons_of_ne _ _ (by decide), List.cons_append,
        find_colon_cons_of_ne _ _ (by decide)]
      exact ih
    · rw [List.cons_append, find_colon_cons_of_ne _ _ (by decide), List.cons_append,
        find_colon_cons_of_ne _ _ (by decide)]
      exact ih
    · rw [List.cons_append, find_colon_cons_of_ne _ _ b]
      exact ih

theorem unescape_escape_roundtrip (S : List Char) (h : NUL ∉ S) :
    json_unescape (json_escape S) = S := by
  unfold json_unescape
  rw [cstr_of_nul_free _ (nul_not_mem_json_escape S), json_unescape_loop_escape S h]

theorem nul_not_mem_fmt_d (m : Int) (h0 : 0 ≤ m) : NUL ∉ fmt_d m := by
  have hfmt : fmt_d m = dec_digits_core (m.natAbs + 1) m.natAbs [] := by
    unfold fmt_d
    rw [if_neg (by omega)]
  obtain ⟨hdig, _, _⟩ := dec_digits_core_spec (m.natAbs + 1) m.natAbs [] (by omega)
    (fun c hc => absurd hc (List.not_mem_nil c))
  rw [hfmt]
  intro hmem
  exact (is_digit_not_special _ (hdig _ hmem)).2.2.2.2.2.1 rfl

theorem ice_message_form (c : List Char) (m : Int) :
    ice_message c m =
      '{' :: '"' :: 't' :: 'y' :: 'p' :: 'e' :: '"' :: ':' :: '"' :: 'i' :: 'c' :: 'e' :: '"' ::
        ',' :: '"' :: 'c' :: 'a' :: 'n' :: 'd' :: 'i' :: 'd' :: 'a' :: 't' :: 'e' :: '"' ::
          ':' :: '"' :: (json_escape c ++ ice_tail m) := by
  simp [ice_message, ice_tail]

theorem cstr_ice_message (c : List Char) (m : Int) (h0 : 0 ≤ m) :
    cstr (ice_message c m) = ice_message c m := by
  apply cstr_of_nul_free
  have hform : ice_message c m =
      ['{', '"', 't', 'y', 'p', 'e', '"', ':', '"', 'i', 'c', 'e', '"', ',',
        '"', 'c', 'a', 'n', 'd', 'i', 'd', 'a', 't', 'e', '"', ':', '"'] ++
        (json_escape c ++ ice_tail m) := by
    simp [ice_message, ice_tail]
  have hhead : NUL ∉ ['{', '"', 't', 'y', 'p', 'e', '"', ':', '"', 'i', 'c', 'e', '"', ',',
      '"', 'c', 'a', 'n', 'd', 'i', 'd', 'a', 't', 'e', '"', ':', '"'] := by decide
  have hesc := nul_not_mem_json_escape c
  have htail : NUL ∉ ice_tail m := by
    unfold ice_tail
    simp only [List.mem_append, List.mem_singleton, not_or]
    exact ⟨by decide, nul_not_mem_fmt_d m h0, by decide⟩
  rw [hform]
  simp only [List.mem_append, not_or]
  exact ⟨hhead, hesc, htail⟩

theorem json_get_string_type_ice_message (c : List Char) (m : Int) (h0 : 0 ≤ m) :
    json_get_string (ice_message c m) ['t', 'y', 'p', 'e'] = some ['i', 'c', 'e'] := by
  have hn : json_needle ['t', 'y', 'p', 'e'] = ['"', 't', 'y', 'p', 'e', '"'] := by decide
  have hl : strlen ['"', 't', 'y', 'p', 'e', '"'] = 6 := by decide
  have hu : json_unescape ['i', 'c', 'e'] = ['i', 'c', 'e'] := by decide
  unfold json_get_string
  simp only [hn, hl]
  rw [cstr_ice_message c m h0, ice_message_form]
  simp [strstr, List.isPrefixOf, strchr, skip_blanks, scan_raw, hu]

theorem json_get_string_candidate_ice_message (c : List Char) (m : Int) (hc : NUL ∉ c)
    (h0 : 0 ≤ m) :
    json_get_string (ice_message c m) ['c', 'a', 'n', 'd', 'i', 'd', 'a', 't', 'e'] = some c := by
  have hn : json_needle ['c', 'a', 'n', 'd', 'i', 'd', 'a', 't', 'e'] =
      ['"', 'c', 'a', 'n', 'd', 'i', 'd', 'a', 't', 'e', '"'] := by decide
  have hl : strlen ['"', 'c', 'a', 'n', 'd', 'i', 'd', 'a', 't', 'e', '"'] = 11 := by decide
  have hs : scan_raw (json_escape c ++ ice_tail m) false = json_escape c := by
    unfold ice_tail
    exact scan_raw_json_escape c _
  unfold json_get_string
  simp only [hn, hl]
  rw [cstr_ice_message c m h0, ice_message_form]
  simp [strstr, List.isPrefixOf, strchr, skip_blanks, hs, unescape_escape_roundtrip c hc]

theorem json_get_int_ice_message (c : List Char) (m : Int) (h0 : 0 ≤ m)
    (h1 : m ≤ 2147483647) :
    json_get_int (ice_message c m)
      ['s', 'd', 'p', 'M', 'L', 'i', 'n', 'e', 'I', 'n', 'd', 'e', 'x'] 0 = m := by
  have hn : json_needle ['s', 'd', 'p', 'M', 'L', 'i', 'n', 'e', 'I', 'n', 'd', 'e', 'x'] =
      mline_needle := by decide
  have hl : strlen mline_needle = 15 := by decide
  have hfind : find_colon (ice_message c m) = some (':' :: (fmt_d m ++ ['}'])) := by
    rw [ice_message_form]
    iterate 26
      first
        | rw [find_colon_cons_of_ne _ _ (by decide)]
        | rw [find_colon_quote_cons_of_ne _ _ (by decide)]
    exact find_colon_quote m c _ rfl (find_colon_json_escape m c)
  obtain ⟨pos, hpos, hcolon⟩ := Option.bind_eq_some.mp hfind
  unfold json_get_int
  simp only [hn, hl]
  rw [cstr_ice_message c m h0]
  simp only [hpos, hcolon, List.drop_succ_cons, List.drop_zero]
  exact atoi_fmt_d m h0 h1 []



/-! ## Lemmas on the producer thread and `stop_streaming` -/

/-- The steps of `stop_streaming_step`, taken without interruption once the
producer has returned, are `stop_streaming`. -/
theorem stop_streaming_steps (state : AppState) :
    threads_run ⟨state, .exited, .test, []⟩ [.stop, .stop, .stop] =
      ⟨(stop_streaming state).1, .exited, .returned, (stop_streaming state).2⟩ := by
  by_cases hr : state.render_running = true <;> by_cases hp : state.pipeline = 0 <;>
    simp [threads_run, threads_step, stop_streaming_step, stop_streaming, destroy_pipeline, hr, hp]

theorem no_feed_after_release_append_of_no_release (tr es : List Effect)
    (h : ∀ e ∈ tr, is_release e = false) :
    no_feed_after_release (tr ++ es) = no_feed_after_release es := by
  induction tr with
  | nil => rfl
  | cons e tr ih =>
    have he : is_release e = false := h e (by simp)
    have ht : ∀ f ∈ tr, is_release f = false := fun f hf => h f (List.mem_cons_of_mem _ hf)
    simp [no_feed_after_release, he, ih ht]

theorem no_feed_after_release_append_of_no_feed (tr es : List Effect)
    (h : no_feed_after_release tr = true) (hes : ∀ e ∈ es, is_feed e = false)
    (hes' : no_feed_after_release es = true) :
    no_feed_after_release (tr ++ es) = true := by
  induction tr with
  | nil => simpa using hes'
  | cons e tr ih =>
    simp only [no_feed_after_release, Bool.and_eq_true, Bool.or_eq_true, Bool.not_eq_true',
      List.all_eq_true] at h
    obtain ⟨h1, h2⟩ := h
    simp only [List.cons_append, no_feed_after_release, Bool.and_eq_true, Bool.or_eq_true,
      Bool.not_eq_true', List.all_eq_true]
    refine ⟨?_, ih h2⟩
    rcases h1 with h1 | h1
    · exact Or.inl h1
    · refine Or.inr fun f hf => ?_
      rcases List.mem_append.mp hf with hf | hf
      · exact h1 f hf
      · exact hes f hf

theorem no_release_append_singleton (tr : List Effect) (e : Effect)
    (h : ∀ f ∈ tr, is_release f = false) (he : is_release e = false) :
    ∀ f ∈ tr ++ [e], is_release f = false := by
  intro f hf
  rcases List.mem_append.mp hf with hf | hf
  · exact h f hf
  · simp only [List.mem_singleton] at hf
    rw [hf]; exact he

theorem stop_inv_step (x : Threads) (t : Turn) (h : stop_inv x) : stop_inv (threads_step x t) := by
  obtain ⟨x_state, x_producer, x_stop, x_trace⟩ := x
  obtain ⟨h1, h2, h3, h4, h5, h6⟩ := h
  simp only at h1 h2 h3 h4 h5 h6
  cases t with
  | stop =>
    cases x_stop with
    | test =>
      have hrel := h5 (by simp)
      by_cases hr : x_state.render_running = true
      · have e : threads_step ⟨x_state, x_producer, .test, x_trace⟩ .stop =
            ⟨{ x_state with render_running := false }, x_producer, .join, x_trace⟩ := by
          simp [threads_step, stop_streaming_step, hr]
        rw [e]
        exact ⟨by simp, by simp, by simp, by simp, fun _ => hrel, h6⟩
      · have hr' : x_state.render_running = false := by simpa using hr
        have hex := h1 rfl hr'
        have e : threads_step ⟨x_state, x_producer, .test, x_trace⟩ .stop =
            ⟨x_state, x_producer, .destroy, x_trace⟩ := by
          simp [threads_step, stop_streaming_step, hr']
        rw [e]
        exact ⟨by simp, by simp, fun _ => ⟨hex, hr'⟩, by simp, fun _ => hrel, h6⟩
    | join =>
      have hrel := h5 (by simp)
      have hr := h2 rfl
      by_cases hex : x_producer = .exited
      · have e : threads_step ⟨x_state, x_producer, .join, x_trace⟩ .stop =
            ⟨x_state, x_producer, .destroy,
              x_trace ++ [Effect.pthread_join x_state.render_thread]⟩ := by
          simp [threads_step, stop_streaming_step, hex]
        rw [e]
        refine ⟨by simp, by simp, fun _ => ⟨hex, hr⟩, by simp,
          fun _ => no_release_append_singleton _ _ hrel rfl, ?_⟩
        show no_feed_after_release (x_trace ++ _) = true
        rw [no_feed_after_release_append_of_no_release _ _ hrel]
        rfl
      · have e : threads_step ⟨x_state, x_producer, .join, x_trace⟩ .stop =
            ⟨x_state, x_producer, .join, x_trace⟩ := by
          simp [threads_step, stop_streaming_step, hex]
        rw [e]
        exact ⟨by simp, fun _ => hr, by simp, by simp, fun _ => hrel, h6⟩
    | destroy =>
      have hrel := h5 (by simp)
      obtain ⟨hex, hr⟩ := h3 rfl
      have e : threads_step ⟨x_state, x_producer, .destroy, x_trace⟩ .stop =
          ⟨(destroy_pipeline x_state).1, x_producer, .returned,
            x_trace ++ (destroy_pipeline x_state).2⟩ := by
        simp [threads_step, stop_streaming_step]
      rw [e]
      refine ⟨by simp, by simp, by simp, fun _ => ⟨hex, ?_, ?_⟩, by simp, ?_⟩
      · show (destroy_pipeline x_state).1.render_running = false
        unfold destroy_pipeline
        split_ifs <;> simp [hr]
      · show (destroy_pipeline x_state).1.pipeline = 0
        unfold destroy_pipeline
        split_ifs with hp <;> simp [hp]
      · show no_feed_after_release (x_trace ++ _) = true
        rw [no_feed_after_release_append_of_no_release _ _ hrel]
        unfold destroy_pipeline
        split_ifs <;> rfl
    | returned =>
      have e : threads_step ⟨x_state, x_producer, .returned, x_trace⟩ .stop =
          ⟨x_state, x_producer, .returned, x_trace⟩ := by
        simp [threads_step, stop_streaming_step]
      rw [e]
      exact ⟨h1, h2, h3, h4, h5, h6⟩
  | producer init_ok tick =>
    cases x_producer with
    | init =>
      by_cases hi : init_ok = false
      · have e : threads_step ⟨x_state, .init, x_stop, x_trace⟩ (.producer init_ok tick) =
            ⟨{ x_state with render_running := false }, .exited, x_stop, x_trace⟩ := by
          simp [threads_step, render_thread_step, hi]
        rw [e]
        exact ⟨fun _ _ => rfl, fun _ => rfl, fun hs => absurd (h3 hs).1 (by simp),
          fun hs => absurd (h4 hs).1 (by simp), h5, h6⟩
      · have e : threads_step ⟨x_state, .init, x_stop, x_trace⟩ (.producer init_ok tick) =
            ⟨x_state, .check, x_stop, x_trace⟩ := by
          simp [threads_step, render_thread_step, hi]
        rw [e]
        exact ⟨fun hs hr => absurd (h1 hs hr) (by simp), h2,
          fun hs => absurd (h3 hs).1 (by simp), fun hs => absurd (h4 hs).1 (by simp), h5, h6⟩
    | check =>
      by_cases hr : x_state.render_running = true
      · have e : threads_step ⟨x_state, .check, x_stop, x_trace⟩ (.producer init_ok tick) =
            ⟨x_state, .body, x_stop, x_trace⟩ := by
          simp [threads_step, render_thread_step, hr]
        rw [e]
        exact ⟨fun hs hr' => absurd (h1 hs hr') (by simp), h2,
          fun hs => absurd (h3 hs).1 (by simp), fun hs => absurd (h4 hs).1 (by simp), h5, h6⟩
      · have e : threads_step ⟨x_state, .check, x_stop, x_trace⟩ (.producer init_ok tick) =
            ⟨x_state, .exited, x_stop, x_trace⟩ := by
          simp [threads_step, render_thread_step, hr]
        rw [e]
        exact ⟨fun _ _ => rfl, h2, fun hs => absurd (h3 hs).1 (by simp),
          fun hs => absurd (h4 hs).1 (by simp), h5, h6⟩
    | body =>
      have hnr : x_stop ≠ .returned := fun hs => absurd (h4 hs).1 (by simp)
      have hrel := h5 hnr
      have hnd : x_stop ≠ .destroy := fun hs => absurd (h3 hs).1 (by simp)
      have hfeed : no_feed_after_release
          (x_trace ++ [Effect.gst_app_src_push_buffer x_state.appsrc]) = true :=
        (no_feed_after_release_append_of_no_release _ _ hrel).trans rfl
      have hrel' := no_release_append_singleton x_trace
        (Effect.gst_app_src_push_buffer x_state.appsrc) hrel rfl
      cases tick with
      | sleep =>
        have e : threads_step ⟨x_state, .body, x_stop, x_trace⟩ (.producer init_ok .sleep) =
            ⟨x_state, .check, x_stop, x_trace⟩ := by
          simp [threads_step, render_thread_step]
        rw [e]
        exact ⟨fun hs hr => absurd (h1 hs hr) (by simp), h2, fun hs => absurd hs hnd,
          fun hs => absurd hs hnr, h5, h6⟩
      | map_failed =>
        have e : threads_step ⟨x_state, .body, x_stop, x_trace⟩
            (.producer init_ok .map_failed) = ⟨x_state, .check, x_stop, x_trace⟩ := by
          simp [threads_step, render_thread_step]
        rw [e]
        exact ⟨fun hs hr => absurd (h1 hs hr) (by simp), h2, fun hs => absurd hs hnd,
          fun hs => absurd hs hnr, h5, h6⟩
      | push_ok =>
        have e : threads_step ⟨x_state, .body, x_stop, x_trace⟩ (.producer init_ok .push_ok) =
            ⟨x_state, .check, x_stop,
              x_trace ++ [Effect.gst_app_src_push_buffer x_state.appsrc]⟩ := by
          simp [threads_step, render_thread_step]
        rw [e]
        exact ⟨fun hs hr => absurd (h1 hs hr) (by simp), h2, fun hs => absurd hs hnd,
          fun hs => absurd hs hnr, fun _ => hrel', hfeed⟩
      | push_failed =>
        have e : threads_step ⟨x_state, .body, x_stop, x_trace⟩
            (.producer init_ok .push_failed) =
            ⟨x_state, .exited, x_stop,
              x_trace ++ [Effect.gst_app_src_push_buffer x_state.appsrc]⟩ := by
          simp [threads_step, render_thread_step]
        rw [e]
        exact ⟨fun _ _ => rfl, h2, fun hs => absurd hs hnd,
          fun hs => absurd hs hnr, fun _ => hrel', hfeed⟩
    | exited =>
      have e : threads_step ⟨x_state, .exited, x_stop, x_trace⟩ (.producer init_ok tick) =
          ⟨x_state, .exited, x_stop, x_trace⟩ := by
        simp [threads_step, render_thread_step]
      rw [e]
      exact ⟨h1, h2, h3, h4, h5, h6⟩

theorem stop_inv_run (ts : List Turn) (x : Threads) (h : stop_inv x) :
    stop_inv (threads_run x ts) := by
  induction ts generalizing x with
  | nil => exact h
  | cons t ts ih => exact ih _ (stop_inv_step x t h)

/-! ## Lemmas on the offer message and the reference encoding -/

theorem json_escape_eq_reference (s : List Char) (h : NUL ∉ s) :
    json_escape s = reference_escape s := by
  induction s with
  | nil => rfl
  | cons c p ih =>
    have hc : c ≠ NUL := fun e => h (by simp [e])
    have hp : NUL ∉ p := fun m => h (List.mem_cons_of_mem _ m)
    have ih' : json_escape p = List.flatMap p escape_image := ih hp
    unfold json_escape reference_escape
    rw [List.flatMap_cons, if_neg hc, ← ih']
    unfold escape_image
    split_ifs <;> rfl

theorem not_mem_json_escape_of_raw (s : List Char) (x : Char)
    (hx : x = '\n' ∨ x = '\r' ∨ x = '\t') : x ∉ json_escape s := by
  have h1 : x ≠ '\\' := by rcases hx with e | e | e <;> rw [e] <;> decide
  have h2 : x ≠ '"' := by rcases hx with e | e | e <;> rw [e] <;> decide
  have h3 : x ≠ 'n' := by rcases hx with e | e | e <;> rw [e] <;> decide
  have h4 : x ≠ 'r' := by rcases hx with e | e | e <;> rw [e] <;> decide
  have h5 : x ≠ 't' := by rcases hx with e | e | e <;> rw [e] <;> decide
  induction s with
  | nil => simp [json_escape]
  | cons c p ih =>
    unfold json_escape
    split_ifs with a b c1 d e f
    · simp
    · simp only [List.mem_cons, not_or]; exact ⟨h1, h2, ih⟩
    · simp only [List.mem_cons, not_or]; exact ⟨h1, h1, ih⟩
    · simp only [List.mem_cons, not_or]; exact ⟨h1, h3, ih⟩
    · simp only [List.mem_cons, not_or]; exact ⟨h1, h4, ih⟩
    · simp only [List.mem_cons, not_or]; exact ⟨h1, h5, ih⟩
    · simp only [List.mem_cons, not_or]
      refine ⟨fun hxc => ?_, ih⟩
      rcases hx with e' | e' | e'
      · exact d (hxc ▸ e')
      · exact e (hxc ▸ e')
      · exact f (hxc ▸ e')

theorem sdp_message_offer_form (v : List Char) :
    sdp_message ['o', 'f', 'f', 'e', 'r'] v =
      ['{', '"', 't', 'y', 'p', 'e', '"', ':', '"', 'o', 'f', 'f', 'e', 'r', '"', ',',
        '"', 's', 'd', 'p', '"', ':', '"'] ++ (json_escape v ++ ['"', '}']) := by
  have : cstr ['o', 'f', 'f', 'e', 'r'] = ['o', 'f', 'f', 'e', 'r'] := by decide
  simp [sdp_message, this]

theorem cstr_sdp_message_offer (v : List Char) :
    cstr (sdp_message ['o', 'f', 'f', 'e', 'r'] v) = sdp_message ['o', 'f', 'f', 'e', 'r'] v := by
  apply cstr_of_nul_free
  have hhead : NUL ∉ ['{', '"', 't', 'y', 'p', 'e', '"', ':', '"', 'o', 'f', 'f', 'e', 'r', '"',
      ',', '"', 's', 'd', 'p', '"', ':', '"'] := by decide
  have htail : NUL ∉ ['"', '}'] := by decide
  rw [sdp_message_offer_form]
  simp only [List.mem_append, not_or]
  exact ⟨hhead, nul_not_mem_json_escape v, htail⟩

theorem json_get_string_sdp_of_offer (v : List Char) (hv : NUL ∉ v) :
    json_get_string (sdp_message ['o', 'f', 'f', 'e', 'r'] v) ['s', 'd', 'p'] = some v := by
  have hn : json_needle ['s', 'd', 'p'] = ['"', 's', 'd', 'p', '"'] := by decide
  have hl : strlen ['"', 's', 'd', 'p', '"'] = 5 := by decide
  have hs : scan_raw (json_escape v ++ ['"', '}']) false = json_escape v :=
    scan_raw_json_escape v _
  unfold json_get_string
  simp only [hn, hl]
  rw [cstr_sdp_message_offer, sdp_message_offer_form]
  simp [strstr, List.isPrefixOf, strchr, skip_blanks, hs, unescape_escape_roundtrip v hv]

theorem json_get_string_type_of_offer (v : List Char) :
    json_get_string (sdp_message ['o', 'f', 'f', 'e', 'r'] v) ['t', 'y', 'p', 'e'] =
      some ['o', 'f', 'f', 'e', 'r'] := by
  have hn : json_needle ['t', 'y', 'p', 'e'] = ['"', 't', 'y', 'p', 'e', '"'] := by decide
  have hl : strlen ['"', 't', 'y', 'p', 'e', '"'] = 6 := by decide
  have hu : json_unescape ['o', 'f', 'f', 'e', 'r'] = ['o', 'f', 'f', 'e', 'r'] := by decide
  unfold json_get_string
  simp only [hn, hl]
  rw [cstr_sdp_message_offer, sdp_message_offer_form]
  simp [strstr, List.isPrefixOf, strchr, skip_blanks, scan_raw, hu]

/-! ## Lemmas on the searches of the JSON accessors -/

theorem strstr_eq_none_iff (h n : List Char) : strstr h n = none ↔ ¬ n <:+: h := by
  induction h with
  | nil =>
    unfold strstr
    by_cases hp : n.isPrefixOf [] = true
    · have : n = [] := by simpa using hp
      simp [this]
    · have : n ≠ [] := by simpa using hp
      simp [this]
  | cons c t ih =>
    unfold strstr
    by_cases hp : n.isPrefixOf (c :: t) = true
    · rw [if_pos hp]
      have hp' : n <+: c :: t := List.isPrefixOf_iff_prefix.mp hp
      simp [List.infix_cons_iff, hp']
    · rw [if_neg hp, ih, List.infix_cons_iff]
      have hp' : ¬ n <+: c :: t := fun k => hp (List.isPrefixOf_iff_prefix.mpr k)
      simp [hp']

theorem strstr_of_first_occurrence (n : List Char) :
    ∀ (pre h post : List Char), first_occurrence n h pre post →
      strstr h n = some (n ++ post) := by
  intro pre
  induction pre with
  | nil =>
    intro h post hf
    obtain ⟨he, _⟩ := hf
    simp only [List.nil_append] at he
    have hp : n.isPrefixOf h = true := by
      rw [he]; exact List.isPrefixOf_iff_prefix.mpr (List.prefix_append _ _)
    cases h with
    | nil =>
      unfold strstr
      rw [if_pos hp, he]
    | cons c t =>
      unfold strstr
      rw [if_pos hp, he]
  | cons c pre ih =>
    intro h post hf
    obtain ⟨he, hmin⟩ := hf
    have hnp : ¬ n.isPrefixOf h = true := by
      intro hp
      obtain ⟨post', hpost'⟩ := List.isPrefixOf_iff_prefix.mp hp
      have := hmin [] post' (by simpa using hpost'.symm)
      simp at this
    rw [he] at hnp ⊢
    simp only [List.cons_append] at hnp ⊢
    unfold strstr
    rw [if_neg hnp]
    apply ih
    refine ⟨rfl, fun pre' post' e => ?_⟩
    have := hmin (c :: pre') post' (by rw [he, List.cons_append, e]; rfl)
    simpa using this

theorem first_occurrence_unique (n h pre post pre' post' : List Char)
    (h1 : first_occurrence n h pre post) (h2 : first_occurrence n h pre' post') :
    pre = pre' ∧ post = post' := by
  have e1 := strstr_of_first_occurrence n pre h post h1
  have e2 := strstr_of_first_occurrence n pre' h post' h2
  rw [e1] at e2
  simp only [Option.some.injEq, List.append_cancel_left_eq] at e2
  refine ⟨?_, e2⟩
  have := h1.1.symm.trans h2.1
  rw [e2] at this
  exact List.append_cancel_right this

theorem strchr_append_of_not_mem (p1 p2 : List Char) (x : Char) (h : x ∉ p1) :
    strchr (p1 ++ x :: p2) x = some (x :: p2) := by
  induction p1 with
  | nil => simp [strchr]
  | cons c t ih =>
    have hc : ¬ c = x := fun e => h (by simp [e])
    have ht : x ∉ t := fun m => h (List.mem_cons_of_mem _ m)
    simp [strchr, hc, ih ht]

theorem split_first_unique (x : Char) (p1 p2 q1 q2 : List Char) (h1 : x ∉ p1) (h2 : x ∉ q1)
    (e : p1 ++ x :: p2 = q1 ++ x :: q2) : p1 = q1 ∧ p2 = q2 := by
  have a := strchr_append_of_not_mem p1 p2 x h1
  have b := strchr_append_of_not_mem q1 q2 x h2
  rw [e, b] at a
  simp only [Option.some.injEq, List.cons.injEq, true_and] at a
  refine ⟨?_, a.symm⟩
  rw [a] at e
  exact List.append_cancel_right e

theorem json_needle_eq_quoted (key : List Char) (hk : NUL ∉ key) (hlen : key.length ≤ 61) :
    json_needle key = quoted key ∧ strlen (quoted key) = (quoted key).length := by
  have hq : NUL ∉ quoted key := by
    unfold quoted
    simp only [List.mem_cons, List.mem_append, List.mem_singleton, not_or]
    exact ⟨by decide, hk, by decide⟩
  refine ⟨?_, ?_⟩
  · unfold json_needle quoted
    rw [cstr_of_nul_free key hk]
    apply List.take_of_length_le
    simp
    omega
  · unfold strlen
    rw [cstr_of_nul_free _ hq]

theorem json_get_int_of_no_key (json key : List Char) (d : Int)
    (hk : NUL ∉ key) (hlen : key.length ≤ 61)
    (h : ¬ quoted key <:+: cstr json) : json_get_int json key d = d := by
  obtain ⟨hn, hl⟩ := json_needle_eq_quoted key hk hlen
  unfold json_get_int
  simp only [hn, hl]
  rw [(strstr_eq_none_iff (cstr json) (quoted key)).mpr h]

theorem strstr_append_self (n post : List Char) : strstr (n ++ post) n = some (n ++ post) := by
  have hp : n.isPrefixOf (n ++ post) = true :=
    List.isPrefixOf_iff_prefix.mpr (List.prefix_append _ _)
  cases hnp : n ++ post with
  | nil =>
    rw [hnp] at hp
    unfold strstr
    rw [if_pos hp]
  | cons c t =>
    rw [hnp] at hp
    unfold strstr
    rw [if_pos hp]

theorem nul_not_mem_fmt_d_all (m : Int) : NUL ∉ fmt_d m := by
  obtain ⟨hdig, _, _⟩ := dec_digits_core_spec (m.natAbs + 1) m.natAbs [] (by omega)
    (fun c hc => absurd hc (List.not_mem_nil c))
  have hd : NUL ∉ dec_digits_core (m.natAbs + 1) m.natAbs [] :=
    fun hmem => (is_digit_not_special _ (hdig _ hmem)).2.2.2.2.2.1 rfl
  unfold fmt_d
  split_ifs
  · simp only [List.mem_cons, not_or]
    exact ⟨by decide, hd⟩
  · exact hd

/-- On the decimal text of any `int` value, followed by a closing brace,
`atoi` returns the value. -/
theorem atoi_fmt_d_int (m : Int) (h0 : -2147483648 ≤ m) (h1 : m ≤ 2147483647)
    (rest : List Char) : atoi (skip_blanks (fmt_d m ++ '}' :: rest)) = m := by
  by_cases hm : 0 ≤ m
  · exact atoi_fmt_d m hm h1 rest
  · have hneg : m < 0 := by omega
    obtain ⟨hdig, _, hval⟩ := dec_digits_core_spec (m.natAbs + 1) m.natAbs [] (by omega)
      (fun c hc => absurd hc (List.not_mem_nil c))
    have hfmt : fmt_d m = '-' :: dec_digits_core (m.natAbs + 1) m.natAbs [] := by
      unfold fmt_d
      rw [if_pos hneg]
    have hskip : skip_blanks (fmt_d m ++ '}' :: rest) = fmt_d m ++ '}' :: rest := by
      rw [hfmt]
      have : ¬ (('-' : Char) = ' ' ∨ ('-' : Char) = '\t') := by decide
      simp [skip_blanks, this]
    have hspace : skip_space (fmt_d m ++ '}' :: rest) = fmt_d m ++ '}' :: rest := by
      rw [hfmt]
      have : isspace '-' = false := by decide
      simp [skip_space, this]
    have hdigits : atoi_digits (dec_digits_core (m.natAbs + 1) m.natAbs [] ++ '}' :: rest) 0 =
        m.natAbs := by
      rw [atoi_digits_append _ _ _ hdig, hval]
      have hb : ¬ (48 ≤ ('}' : Char).toNat ∧ ('}' : Char).toNat ≤ 57) := by decide
      simp [atoi_digits, hb, digits_value]
    have hvalue : atoi_value (fmt_d m ++ '}' :: rest) = m := by
      unfold atoi_value
      rw [hspace, hfmt]
      simp only [List.cons_append, hdigits]
      omega
    rw [hskip]
    unfold atoi
    rw [hvalue]
    simp only
    omega

theorem json_get_int_of_single_field (key : List Char) (n d : Int)
    (hk : NUL ∉ key) (hlen : key.length ≤ 61)
    (h0 : -2147483648 ≤ n) (h1 : n ≤ 2147483647) :
    json_get_int ('{' :: (quoted key ++ ':' :: (fmt_d n ++ ['}']))) key d = n := by
  obtain ⟨hn, hl⟩ := json_needle_eq_quoted key hk hlen
  have hnul : NUL ∉ '{' :: (quoted key ++ ':' :: (fmt_d n ++ ['}'])) := by
    unfold quoted
    simp only [List.mem_cons, List.mem_append, List.mem_singleton, not_or]
    exact ⟨by decide, ⟨by decide, hk, by decide⟩, by decide, nul_not_mem_fmt_d_all n, by decide⟩
  have hnp : ¬ (quoted key).isPrefixOf ('{' :: (quoted key ++ ':' :: (fmt_d n ++ ['}']))) = true := by
    simp [quoted, List.isPrefixOf]
  unfold json_get_int
  simp only [hn, hl]
  rw [cstr_of_nul_free _ hnul, strstr, if_neg hnp, strstr_append_self]
  simp only [List.drop_left, strchr, if_true, List.drop_succ_cons, List.drop_zero]
  exact atoi_fmt_d_int n h0 h1 []

/-! ## Lemmas on the writable callback and the disconnect -/

/-- A writable callback on a queue that holds `a :: rest`. -/
theorem ws_callback_writeable_cons (wsi : Nat) (state : AppState) (a : Nat) (rest : List Nat)
    (hinv : queue_inv state (a :: rest)) :
    (ws_callback wsi .LWS_CALLBACK_SERVER_WRITEABLE state).1 = 0 ∧
    (ws_callback wsi .LWS_CALLBACK_SERVER_WRITEABLE state).2.2 =
      Effect.lws_write wsi (state.heap a).data (state.heap a).len ::
        (if rest = [] then [] else [Effect.lws_callback_on_writable wsi]) ∧
    queue_inv (ws_callback wsi .LWS_CALLBACK_SERVER_WRITEABLE state).2.1 rest ∧
    (ws_callback wsi .LWS_CALLBACK_SERVER_WRITEABLE state).2.1.heap = state.heap ∧
    (ws_callback wsi .LWS_CALLBACK_SERVER_WRITEABLE state).2.1.live a = false := by
  obtain ⟨hc, hnd, hlive, htail⟩ := hinv
  obtain ⟨h1, h2, h3⟩ := hc
  have har : a ∉ rest := (List.nodup_cons.mp hnd).1
  have hndr : rest.Nodup := (List.nodup_cons.mp hnd).2
  have hliver : ∀ b ∈ rest, live_store state.live a false b = true := by
    intro b hb
    have hba : b ≠ a := fun e => har (e ▸ hb)
    simp [live_store, hba, hlive b (List.mem_cons_of_mem _ hb)]
  cases rest with
  | nil =>
    have hn : (state.heap a).next = 0 := h3
    refine ⟨by simp [ws_callback, h1, h2, hn], by simp [ws_callback, h1, h2, hn], ?_,
      by simp [ws_callback, h1, h2, hn], by simp [ws_callback, h1, h2, hn, live_store]⟩
    simp only [ws_callback, h1, h2, ne_eq, not_false_eq_true, if_true, hn]
    exact ⟨rfl, hndr, hliver, rfl⟩
  | cons b rest' =>
    have hn : (state.heap a).next ≠ 0 := chain_head_ne_zero _ _ _ _ h3
    refine ⟨by simp [ws_callback, h1, h2, hn], by simp [ws_callback, h1, h2, hn], ?_,
      by simp [ws_callback, h1, h2, hn], by simp [ws_callback, h1, h2, hn, live_store]⟩
    simp only [ws_callback, h1, h2, ne_eq, not_false_eq_true, if_true, hn, if_false]
    refine ⟨h3, hndr, hliver, ?_⟩
    show state.ws_tail = _
    rw [htail]
    simp [List.getLastD]

theorem ws_callback_writeable_nil (wsi : Nat) (state : AppState) (hinv : queue_inv state []) :
    ws_callback wsi .LWS_CALLBACK_SERVER_WRITEABLE state = (0, state, []) := by
  have hh : state.ws_head = 0 := hinv.1
  simp [ws_callback, hh]

theorem ws_drain_loop_chain (heap : Nat → WsMessage) (addrs : List Nat) :
    ∀ (fuel : Nat) (live : Nat → Bool) (p : Nat), chain heap p addrs → addrs.length ≤ fuel →
      ∃ live', ws_drain_loop heap fuel live p = some live' ∧
        (∀ a ∈ addrs, live' a = false) ∧ (∀ a, a ∉ addrs → live' a = live a) := by
  induction addrs with
  | nil =>
    intro fuel live p hc _
    have hp : p = 0 := hc
    refine ⟨live, ?_, by simp, fun _ _ => rfl⟩
    cases fuel <;> simp [ws_drain_loop, hp]
  | cons a rest ih =>
    intro fuel live p hc hlen
    obtain ⟨h1, h2, h3⟩ := hc
    cases fuel with
    | zero => simp at hlen
    | succ fuel =>
      have hlen' : rest.length ≤ fuel := by simpa using hlen
      obtain ⟨live', hl, hin, hout⟩ := ih fuel (live_store live a false) _ h3 hlen'
      refine ⟨live', ?_, ?_, ?_⟩
      · rw [h1]
        simp only [ws_drain_loop, h2, if_false]
        exact hl
      · intro b hb
        by_cases hbr : b ∈ rest
        · exact hin b hbr
        · have hba : b = a := by
            rcases List.mem_cons.mp hb with e | e
            · exact e
            · exact absurd e hbr
          rw [hout b hbr, hba]
          simp [live_store]
      · intro b hb
        have hbr : b ∉ rest := fun m => hb (List.mem_cons_of_mem _ m)
        have hba : b ≠ a := fun e => hb (by simp [e])
        rw [hout b hbr]
        simp [live_store, hba]

theorem written_stop_streaming (state : AppState) : written (stop_streaming state).2 = [] := by
  by_cases hr : state.render_running = true <;> by_cases hp : state.pipeline = 0 <;>
    simp [stop_streaming, destroy_pipeline, hr, hp, written]

theorem stop_streaming_post (state : AppState) :
    (stop_streaming state).1.pipeline = 0 ∧ (stop_streaming state).1.render_running = false ∧
    (stop_streaming state).1.heap = state.heap ∧ (stop_streaming state).1.live = state.live ∧
    (stop_streaming state).1.ws_head = state.ws_head ∧
    (stop_streaming state).1.ws_tail = state.ws_tail := by
  by_cases hr : state.render_running = true <;> by_cases hp : state.pipeline = 0 <;>
    simp [stop_streaming, destroy_pipeline, hr, hp]

theorem handle_client_closed_post (fuel : Nat) (state state1 : AppState) (tr : List Effect)
    (h : handle_client_closed fuel state = some (state1, tr)) :
    state1.ws_head = 0 ∧ state1.ws_tail = 0 ∧ state1.pipeline = 0 ∧
      state1.render_running = false ∧ written tr = [] := by
  unfold handle_client_closed ws_drain_queue at h
  obtain ⟨hp, hr, _, _, _, _⟩ := stop_streaming_post state
  split at h
  · exact absurd h (by simp)
  · rename_i s1 hs1
    split at hs1
    · exact absurd hs1 (by simp)
    · simp only [Option.some.injEq] at hs1
      simp only [Option.some.injEq, Prod.mk.injEq] at h
      obtain ⟨e1, e2⟩ := h
      rw [← e1, ← hs1, ← e2]
      exact ⟨rfl, rfl, hp, hr, written_stop_streaming state⟩

theorem handle_client_closed_returns (fuel : Nat) (state : AppState) (addrs : List Nat)
    (hinv : queue_inv state addrs) (hfuel : addrs.length ≤ fuel) :
    ∃ state1, handle_client_closed fuel state = some (state1, (stop_streaming state).2) ∧
      (∀ a ∈ addrs, state1.live a = false) ∧
      (∀ a, a ∉ addrs → state1.live a = state.live a) ∧ queue_inv state1 [] := by
  obtain ⟨_, _, hh, hl, hhead, _⟩ := stop_streaming_post state
  have hc : chain (stop_streaming state).1.heap (stop_streaming state).1.ws_head addrs := by
    rw [hh, hhead]; exact hinv.1
  obtain ⟨live', hd, hin, hout⟩ :=
    ws_drain_loop_chain _ addrs fuel (stop_streaming state).1.live _ hc hfuel
  refine ⟨{ (stop_streaming state).1 with ws_head := 0, ws_tail := 0, live := live' }, ?_, hin,
    ?_, ?_⟩
  · simp [handle_client_closed, ws_drain_queue, hd]
  · intro a ha
    show live' a = _
    rw [hout a ha, hl]
  · exact ⟨rfl, List.nodup_nil, fun a ha => absurd ha (List.not_mem_nil a), rfl⟩

theorem admitted_state_queue_inv : queue_inv admitted_state [7, 9] := by
  have h0 : queue_inv initial_state [] :=
    ⟨rfl, List.nodup_nil, fun a ha => absurd ha (List.not_mem_nil a), rfl⟩
  have h1 := (ws_queue_message_inv 7 initial_state ['a'] 1 [] h0 (by decide) rfl).1
  exact (ws_queue_message_inv 9 _ ['b'] 1 [7] h1 (by decide) rfl).1

/-! ## Lemmas on two calls of `start_streaming` -/

theorem create_pipeline_shape (env : PipelineEnv) (state : AppState) :
    create_pipeline env state =
      ((create_pipeline env state).1,
        { state with pipeline := env.pipeline, appsrc := env.appsrc, webrtcbin := env.webrtcbin },
        [Effect.create_pipeline]) := by
  unfold create_pipeline
  simp only
  split_ifs <;> rfl

theorem create_pipeline_true_pipeline (env : PipelineEnv) (state : AppState)
    (h : (create_pipeline env state).1 = true) : env.pipeline ≠ 0 := by
  intro h0
  simp [create_pipeline, h0] at h

/-- The producer thread writes nothing but `render_running`, and only at a
failed `renderer_init`; its only calls are pushes. -/
theorem render_thread_run_after_init (steps : List (Bool × Tick)) :
    ∀ (pc : ProducerPc) (state : AppState), pc ≠ .init →
      (render_thread_run pc state steps).2.1 = state ∧
      (render_thread_run pc state steps).2.2.count Effect.create_pipeline = 0 ∧
      (render_thread_run pc state steps).2.2.count Effect.pthread_create_render_thread_main
        = 0 := by
  induction steps with
  | nil => intro pc state _; simp [render_thread_run]
  | cons step steps ih =>
    intro pc state hpc
    obtain ⟨init_ok, tick⟩ := step
    cases pc with
    | init => exact absurd rfl hpc
    | check =>
      by_cases hr : state.render_running = true
      · have e : render_thread_step init_ok tick .check state = (.body, state, []) := by
          simp [render_thread_step, hr]
        obtain ⟨k1, k2, k3⟩ := ih .body state (by simp)
        simp only [render_thread_run, e, List.nil_append]
        exact ⟨k1, k2, k3⟩
      · have e : render_thread_step init_ok tick .check state = (.exited, state, []) := by
          simp [render_thread_step, hr]
        obtain ⟨k1, k2, k3⟩ := ih .exited state (by simp)
        simp only [render_thread_run, e, List.nil_append]
        exact ⟨k1, k2, k3⟩
    | body =>
      cases tick with
      | sleep =>
        obtain ⟨k1, k2, k3⟩ := ih .check state (by simp)
        simp only [render_thread_run, render_thread_step, List.nil_append]
        exact ⟨k1, k2, k3⟩
      | map_failed =>
        obtain ⟨k1, k2, k3⟩ := ih .check state (by simp)
        simp only [render_thread_run, render_thread_step, List.nil_append]
        exact ⟨k1, k2, k3⟩
      | push_ok =>
        obtain ⟨k1, k2, k3⟩ := ih .check state (by simp)
        simp only [render_thread_run, render_thread_step]
        refine ⟨k1, ?_, ?_⟩
        · simpa using k2
        · simpa using k3
      | push_failed =>
        obtain ⟨k1, k2, k3⟩ := ih .exited state (by simp)
        simp only [render_thread_run, render_thread_step]
        refine ⟨k1, ?_, ?_⟩
        · simpa using k2
        · simpa using k3
    | exited =>
      obtain ⟨k1, k2, k3⟩ := ih .exited state (by simp)
      simp only [render_thread_run, render_thread_step, List.nil_append]
      exact ⟨k1, k2, k3⟩

/-- From `renderer_init` the producer clears `render_running` exactly when
its first step is a failed `renderer_init`. -/
theorem render_thread_run_init (steps : List (Bool × Tick)) (state : AppState) :
    ((render_thread_run .init state steps).2.1 =
        if init_fails_first steps = true then { state with render_running := false }
        else state) ∧
      (render_thread_run .init state steps).2.2.count Effect.create_pipeline = 0 ∧
      (render_thread_run .init state steps).2.2.count Effect.pthread_create_render_thread_main
        = 0 := by
  cases steps with
  | nil => simp [render_thread_run, init_fails_first]
  | cons step steps =>
    obtain ⟨init_ok, tick⟩ := step
    cases init_ok with
    | false =>
      have e : render_thread_step false tick .init state =
          (.exited, { state with render_running := false }, []) := by
        simp [render_thread_step]
      obtain ⟨k1, k2, k3⟩ := render_thread_run_after_init steps .exited
        { state with render_running := false } (by simp)
      simp only [render_thread_run, e, List.nil_append, init_fails_first, if_true]
      exact ⟨k1, k2, k3⟩
    | true =>
      have e : render_thread_step true tick .init state = (.check, state, []) := by
        simp [render_thread_step]
      obtain ⟨k1, k2, k3⟩ := render_thread_run_after_init steps .check state (by simp)
      simp only [render_thread_run, e, List.nil_append, init_fails_first]
      exact ⟨k1, k2, k3⟩

theorem start_streaming_of_created (env : StartEnv) (state : AppState)
    (hp : state.pipeline = 0) (hr : state.render_running = false)
    (hc : (create_pipeline env.elements state).1 = true) :
    start_streaming env state =
      if env.set_state = .GST_STATE_CHANGE_FAILURE then
        ({ state with pipeline := env.elements.pipeline, appsrc := env.elements.appsrc,
                      webrtcbin := env.elements.webrtcbin },
          [Effect.create_pipeline,
            Effect.gst_element_set_state env.elements.pipeline .GST_STATE_PLAYING])
      else
        ({ state with pipeline := env.elements.pipeline, appsrc := env.elements.appsrc,
                      webrtcbin := env.elements.webrtcbin, render_running := true,
                      render_thread := env.thread },
          [Effect.create_pipeline,
            Effect.gst_element_set_state env.elements.pipeline .GST_STATE_PLAYING,
            Effect.pthread_create_render_thread_main]) := by
  have hshape := create_pipeline_shape env.elements state
  rw [hc] at hshape
  unfold start_streaming
  rw [if_pos hp]
  simp only [hshape]
  by_cases hs : env.set_state = .GST_STATE_CHANGE_FAILURE
  · simp [start_streaming_play, hs]
  · simp [start_streaming_play, hs, hr]

theorem start_streaming_of_not_created (env : StartEnv) (state : AppState)
    (hp : state.pipeline = 0) (hc : ¬ (create_pipeline env.elements state).1 = true) :
    start_streaming env state =
      ({ state with pipeline := env.elements.pipeline, appsrc := env.elements.appsrc,
                    webrtcbin := env.elements.webrtcbin }, [Effect.create_pipeline]) := by
  have hc' : (create_pipeline env.elements state).1 = false := by simpa using hc
  have hshape := create_pipeline_shape env.elements state
  rw [hc'] at hshape
  unfold start_streaming
  rw [if_pos hp]
  simp only [hshape]
  simp

theorem start_streaming_of_pipeline (env : StartEnv) (state : AppState)
    (hp : state.pipeline ≠ 0) :
    start_streaming env state =
      if env.set_state = .GST_STATE_CHANGE_FAILURE ∨ state.render_running = true then
        (state, [Effect.gst_element_set_state state.pipeline .GST_STATE_PLAYING])
      else
        ({ state with render_running := true, render_thread := env.thread },
          [Effect.gst_element_set_state state.pipeline .GST_STATE_PLAYING,
            Effect.pthread_create_render_thread_main]) := by
  unfold start_streaming
  rw [if_neg hp]
  unfold start_streaming_play
  by_cases hs : env.set_state = .GST_STATE_CHANGE_FAILURE
  · simp [hs]
  · by_cases hr : state.render_running = true
    · simp [hs, hr]
    · simp [hs, hr]

theorem count_create_start_streaming_idle (env : StartEnv) (state : AppState)
    (hp : state.pipeline = 0) :
    1 ≤ (start_streaming env state).2.count Effect.create_pipeline := by
  have hshape := create_pipeline_shape env.elements state
  unfold start_streaming
  rw [if_pos hp]
  by_cases hc : (create_pipeline env.elements state).1 = false
  · simp only [hc, if_true]
    rw [hshape]
    simp
  · simp only [hc, if_false]
    rw [hshape]
    simp

/-! ## Lemmas on the offer message -/

theorem handle_ws_message_offer (env : OfferEnv) (state : AppState) :
    handle_ws_message env state offer_message =
      (state,
        Effect.handle_offer ['v', '=', '0', '\r', '\n'] ::
          (if env.sdp_new_ok = true ∧ env.parse_ok = true then
            [Effect.g_signal_emit_by_name state.webrtcbin
                (.set_remote_description ['v', '=', '0', '\r', '\n']),
              Effect.g_signal_emit_by_name state.webrtcbin .create_answer]
          else [])) := by
  have htype : json_get_string offer_message ['t', 'y', 'p', 'e'] =
      some ['o', 'f', 'f', 'e', 'r'] := by decide
  have hsdp : json_get_string offer_message ['s', 'd', 'p'] =
      some ['v', '=', '0', '\r', '\n'] := by decide
  have hcmp : strcmp_eq ['o', 'f', 'f', 'e', 'r'] ['o', 'f', 'f', 'e', 'r'] = true := by decide
  have hc : cstr ['v', '=', '0', '\r', '\n'] = ['v', '=', '0', '\r', '\n'] := by decide
  cases hn : env.sdp_new_ok <;> cases hq : env.parse_ok <;>
    simp [handle_ws_message, htype, hsdp, hcmp, handle_offer, hn, hq, hc]

theorem handle_ws_message_then_reply_none (env : OfferEnv) (item : Nat) (state : AppState)
    (message : List Char) :
    handle_ws_message_then_reply env item none state message =
      handle_ws_message env state message := by
  unfold handle_ws_message_then_reply
  simp only
  split_ifs <;> simp [on_answer_created]

theorem handle_ws_message_then_reply_rejected (env : OfferEnv) (item : Nat)
    (answer : Option (List Char)) (state : AppState)
    (h : env.sdp_new_ok = false ∨ env.parse_ok = false) :
    handle_ws_message_then_reply env item answer state offer_message =
      (state, [Effect.handle_offer ['v', '=', '0', '\r', '\n']]) := by
  have hcond : ¬ (env.sdp_new_ok = true ∧ env.parse_ok = true) := by
    rcases h with h | h <;> simp [h]
  unfold handle_ws_message_then_reply
  rw [handle_ws_message_offer, if_neg hcond]
  simp

/-- With the SDP accepted and an answer in the reply, the processing of the
offer text appends exactly the answer message to the queue. -/
theorem offer_reply_enqueues_one (env : OfferEnv) (state : AppState) (item : Nat)
    (answer : List Char) (addrs : List Nat)
    (hnew : env.sdp_new_ok = true) (hparse : env.parse_ok = true)
    (hinv : queue_inv state addrs) (h0 : item ≠ 0) (hfree : state.live item = false) :
    json_get_string offer_message ['t', 'y', 'p', 'e'] = some ['o', 'f', 'f', 'e', 'r'] ∧
    handle_ws_message env state offer_message =
      (state,
        [Effect.handle_offer ['v', '=', '0', '\r', '\n'],
          Effect.g_signal_emit_by_name state.webrtcbin
            (.set_remote_description ['v', '=', '0', '\r', '\n']),
          Effect.g_signal_emit_by_name state.webrtcbin .create_answer]) ∧
    queue_inv (handle_ws_message_then_reply env item (some answer) state offer_message).1
      (addrs ++ [item]) ∧
    contents (handle_ws_message_then_reply env item (some answer) state offer_message).1.heap
        (addrs ++ [item]) =
      contents state.heap addrs ++
        [(['{', '"', 't', 'y', 'p', 'e', '"', ':', '"', 'a', 'n', 's', 'w', 'e', 'r', '"', ',',
            '"', 's', 'd', 'p', '"', ':', '"'] ++ json_escape answer ++ ['"', '}'],
          26 + (json_escape answer).length)] ∧
    written (handle_ws_message_then_reply env item (some answer) state offer_message).2 = [] := by
  have htype : json_get_string offer_message ['t', 'y', 'p', 'e'] =
      some ['o', 'f', 'f', 'e', 'r'] := by decide
  have hsdp : json_get_string offer_message ['s', 'd', 'p'] =
      some ['v', '=', '0', '\r', '\n'] := by decide
  have hcmp : strcmp_eq ['o', 'f', 'f', 'e', 'r'] ['o', 'f', 'f', 'e', 'r'] = true := by decide
  have hc : cstr ['v', '=', '0', '\r', '\n'] = ['v', '=', '0', '\r', '\n'] := by decide
  have hmsg : handle_ws_message env state offer_message =
      (state,
        [Effect.handle_offer ['v', '=', '0', '\r', '\n'],
          Effect.g_signal_emit_by_name state.webrtcbin
            (.set_remote_description ['v', '=', '0', '\r', '\n']),
          Effect.g_signal_emit_by_name state.webrtcbin .create_answer]) := by
    simp [handle_ws_message, htype, hsdp, hcmp, handle_offer, hnew, hparse, hc]
  have hreply : handle_ws_message_then_reply env item (some answer) state offer_message =
      ((ws_queue_message item state (sdp_message ['a', 'n', 's', 'w', 'e', 'r'] answer)
          (sdp_message ['a', 'n', 's', 'w', 'e', 'r'] answer).length).1,
        [Effect.handle_offer ['v', '=', '0', '\r', '\n'],
          Effect.g_signal_emit_by_name state.webrtcbin
            (.set_remote_description ['v', '=', '0', '\r', '\n']),
          Effect.g_signal_emit_by_name state.webrtcbin .create_answer,
          Effect.g_signal_emit_by_name state.webrtcbin (.set_local_description answer)] ++
        (ws_queue_message item state (sdp_message ['a', 'n', 's', 'w', 'e', 'r'] answer)
          (sdp_message ['a', 'n', 's', 'w', 'e', 'r'] answer).length).2) := by
    simp [handle_ws_message_then_reply, hmsg, on_answer_created, ws_send_sdp]
  obtain ⟨hq, hcont, hw⟩ := ws_queue_message_inv item state
    (sdp_message ['a', 'n', 's', 'w', 'e', 'r'] answer)
    (sdp_message ['a', 'n', 's', 'w', 'e', 'r'] answer).length addrs hinv h0 hfree
  have hform : sdp_message ['a', 'n', 's', 'w', 'e', 'r'] answer =
      ['{', '"', 't', 'y', 'p', 'e', '"', ':', '"', 'a', 'n', 's', 'w', 'e', 'r', '"', ',',
        '"', 's', 'd', 'p', '"', ':', '"'] ++ json_escape answer ++ ['"', '}'] := by
    have : cstr ['a', 'n', 's', 'w', 'e', 'r'] = ['a', 'n', 's', 'w', 'e', 'r'] := by decide
    simp [sdp_message, this]
  have hlen : (sdp_message ['a', 'n', 's', 'w', 'e', 'r'] answer).length =
      26 + (json_escape answer).length := by
    rw [hform]
    simp
    omega
  refine ⟨htype, hmsg, ?_, ?_, ?_⟩
  · rw [hreply]
    exact hq
  · rw [hreply]
    show contents (ws_queue_message item state _ _).1.heap (addrs ++ [item]) = _
    rw [hcont, hform] at *
    rw [← hform, hlen, hform]
  · rw [hreply]
    show written (_ ++ (ws_queue_message item state _ _).2) = []
    simp only [List.cons_append, List.nil_append, written]
    exact hw


/-! ## Theorems for the claims -/

/-- C1: for every NUL-free string `S`, `json_unescape (json_escape S) = S`. -/
theorem json_unescape_json_escape (S : List Char) (h : NUL ∉ S) :
    json_unescape (json_escape S) = S := by
  unfold json_unescape
  rw [cstr_of_nul_free _ (nul_not_mem_json_escape S), json_unescape_loop_escape S h]

/-- C1 at the test's input: line1, LF, line2, quote, backslash. -/
theorem json_unescape_json_escape_witness :
    NUL ∉ ['l', 'i', 'n', 'e', '1', '\n', 'l', 'i', 'n', 'e', '2', '"', '\\'] ∧
    json_unescape (json_escape
        ['l', 'i', 'n', 'e', '1', '\n', 'l', 'i', 'n', 'e', '2', '"', '\\']) =
      ['l', 'i', 'n', 'e', '1', '\n', 'l', 'i', 'n', 'e', '2', '"', '\\'] :=
  ⟨by decide, json_unescape_json_escape _ (by decide)⟩

/-- C2: the outbound queue is FIFO.  From any state with an empty queue
(`ws_head = ws_tail = NULL`), along every finite interleaving of
`ws_queue_message` calls and writable callbacks in which `calloc` returns
fresh non-null addresses, the messages written are a prefix of the messages
pushed, in push order, and they are all of them once their numbers agree. -/
theorem outbound_queue_fifo (state : AppState) (ops : List QueueOp)
    (hhead : state.ws_head = 0) (htail : state.ws_tail = 0)
    (hok : calloc_ok state ops = true) :
    written (run_queue state ops).2 <+: pushed ops ∧
      ((written (run_queue state ops).2).length = (pushed ops).length →
        written (run_queue state ops).2 = pushed ops) := by
  have hinv : queue_inv state [] :=
    ⟨hhead, List.nodup_nil, fun a ha => absurd ha (List.not_mem_nil a), by
      simpa [List.getLastD] using htail⟩
  obtain ⟨addrs', _, heq⟩ := run_queue_inv ops state [] hinv hok
  simp only [contents, List.map_nil, List.nil_append] at heq
  have hpre : written (run_queue state ops).2 <+: pushed ops := ⟨_, heq.symm⟩
  exact ⟨hpre, fun hlen => List.IsPrefix.eq_of_length hpre hlen⟩

/-- C2 on a run that reuses a freed address: push a, push b, pop, pop,
push c at the address of a, pop, and one pop of the empty queue. -/
theorem outbound_queue_fifo_witness :
    initial_state.ws_head = 0 ∧ initial_state.ws_tail = 0 ∧
    calloc_ok initial_state
        [.push 7 ['a'] 1, .push 9 ['b'] 1, .pop 5, .pop 5, .push 7 ['c'] 1, .pop 5, .pop 5]
      = true ∧
    written (run_queue initial_state
        [.push 7 ['a'] 1, .push 9 ['b'] 1, .pop 5, .pop 5, .push 7 ['c'] 1, .pop 5, .pop 5]).2
      = [(['a'], 1), (['b'], 1), (['c'], 1)] :=
  ⟨rfl, rfl, by decide,
    (outbound_queue_fifo initial_state
      [.push 7 ['a'] 1, .push 9 ['b'] 1, .pop 5, .pop 5, .push 7 ['c'] 1, .pop 5, .pop 5]
      rfl rfl (by decide)).2 (by decide)⟩

/-- C3: while a peer is admitted (`client_wsi` non-null), an
`LWS_CALLBACK_ESTABLISHED` for any handle returns `-1`, its only call is the
policy-violation close of the new handle (no `handle_client_connected` is
dispatched), and the state, `client_wsi` included, is unchanged. -/
theorem established_rejected_when_admitted (wsi : Nat) (state : AppState)
    (h : state.client_wsi ≠ 0) :
    ws_callback wsi .LWS_CALLBACK_ESTABLISHED state =
      (-1, state,
        [Effect.lws_close_reason wsi .LWS_CLOSE_STATUS_POLICY_VIOLATION ['b', 'u', 's', 'y']]) := by
  simp [ws_callback, h]

/-- C3 with peer 41 admitted and handle 42 connecting. -/
theorem established_rejected_when_admitted_witness :
    ({ initial_state with client_wsi := 41 } : AppState).client_wsi ≠ 0 ∧
    ws_callback 42 .LWS_CALLBACK_ESTABLISHED { initial_state with client_wsi := 41 } =
      (-1, { initial_state with client_wsi := 41 },
        [Effect.lws_close_reason 42 .LWS_CLOSE_STATUS_POLICY_VIOLATION ['b', 'u', 's', 'y']]) :=
  ⟨by decide, established_rejected_when_admitted 42 _ (by decide)⟩

/-- C4 as stated fails: when the pipeline refuses `GST_STATE_PLAYING` in both
calls, two calls of `start_streaming` from the idle state enter
`create_pipeline` once and never call `pthread_create`. -/
theorem start_streaming_twice_no_thread :
    initial_state.pipeline = 0 ∧ initial_state.render_running = false ∧
    (start_streaming_twice env_no_play env_no_play [] initial_state).2.count
        Effect.create_pipeline = 1 ∧
    (start_streaming_twice env_no_play env_no_play [] initial_state).2.count
        Effect.pthread_create_render_thread_main = 0 := by
  decide

/-- C4, amended: from the idle state, leaving aside a first call whose
`create_pipeline` fails with the pipeline slot filled, two calls of
`start_streaming` with no `stop_streaming` in between enter `create_pipeline`
exactly once and call `pthread_create` exactly once if and only if the first
call builds the pipeline and either its `gst_element_set_state` does not fail
and the second call finds `render_running` still set or fails its own state
change, or its `gst_element_set_state` fails and that of the second call does
not.  The thread of the first call clears `render_running` exactly when its
`renderer_init` fails before the second call; otherwise the second call only
repeats `gst_element_set_state` and the state stays active. -/
theorem start_streaming_twice_once (env1 env2 : StartEnv) (between : List (Bool × Tick))
    (state : AppState) (hp : state.pipeline = 0) (hr : state.render_running = false)
    (hns : (create_pipeline env1.elements state).1 = true ∨ env1.elements.pipeline = 0) :
    (((start_streaming_twice env1 env2 between state).2.count Effect.create_pipeline = 1 ∧
        (start_streaming_twice env1 env2 between state).2.count
          Effect.pthread_create_render_thread_main = 1) ↔
      ((create_pipeline env1.elements state).1 = true ∧
        ((env1.set_state ≠ .GST_STATE_CHANGE_FAILURE ∧
            (init_fails_first between = false ∨
              env2.set_state = .GST_STATE_CHANGE_FAILURE)) ∨
          (env1.set_state = .GST_STATE_CHANGE_FAILURE ∧
            env2.set_state ≠ .GST_STATE_CHANGE_FAILURE)))) ∧
    ((create_pipeline env1.elements state).1 = true →
      env1.set_state ≠ .GST_STATE_CHANGE_FAILURE →
      (start_streaming_then_producer env1 between state).1.render_running =
        !init_fails_first between) ∧
    ((create_pipeline env1.elements state).1 = true →
      env1.set_state ≠ .GST_STATE_CHANGE_FAILURE → init_fails_first between = false →
      (start_streaming env2 (start_streaming_then_producer env1 between state).1).2 =
        [Effect.gst_element_set_state env1.elements.pipeline .GST_STATE_PLAYING] ∧
      (start_streaming_twice env1 env2 between state).1.pipeline = env1.elements.pipeline ∧
      (start_streaming_twice env1 env2 between state).1.pipeline ≠ 0 ∧
      (start_streaming_twice env1 env2 between state).1.render_running = true) := by
  by_cases hc : (create_pipeline env1.elements state).1 = true
  · have hpipe := create_pipeline_true_pipeline _ _ hc
    have h1 := start_streaming_of_created env1 state hp hr hc
    by_cases hs1 : env1.set_state = .GST_STATE_CHANGE_FAILURE
    · rw [if_pos hs1] at h1
      have hm : start_streaming_then_producer env1 between state =
          ({ state with pipeline := env1.elements.pipeline, appsrc := env1.elements.appsrc,
                        webrtcbin := env1.elements.webrtcbin },
            [Effect.create_pipeline,
              Effect.gst_element_set_state env1.elements.pipeline .GST_STATE_PLAYING]) := by
        unfold start_streaming_then_producer
        rw [h1]
        simp
      refine ⟨?_, fun _ h => absurd hs1 h, fun _ h => absurd hs1 h⟩
      unfold start_streaming_twice
      rw [hm, start_streaming_of_pipeline env2 _ hpipe]
      by_cases hs2 : env2.set_state = .GST_STATE_CHANGE_FAILURE
      · simp [hs2, hc, hs1]
      · simp [hs2, hc, hs1, hr]
    · rw [if_neg hs1] at h1
      obtain ⟨k1, k2, k3⟩ := render_thread_run_init between
        { state with pipeline := env1.elements.pipeline, appsrc := env1.elements.appsrc,
                     webrtcbin := env1.elements.webrtcbin, render_running := true,
                     render_thread := env1.thread }
      have hm : start_streaming_then_producer env1 between state =
          ((render_thread_run .init
              { state with pipeline := env1.elements.pipeline, appsrc := env1.elements.appsrc,
                           webrtcbin := env1.elements.webrtcbin, render_running := true,
                           render_thread := env1.thread } between).2.1,
            [Effect.create_pipeline,
              Effect.gst_element_set_state env1.elements.pipeline .GST_STATE_PLAYING,
              Effect.pthread_create_render_thread_main] ++
            (render_thread_run .init
              { state with pipeline := env1.elements.pipeline, appsrc := env1.elements.appsrc,
                           webrtcbin := env1.elements.webrtcbin, render_running := true,
                           render_thread := env1.thread } between).2.2) := by
        unfold start_streaming_then_producer
        rw [h1]
        simp
      by_cases hf : init_fails_first between = true
      · rw [if_pos hf] at k1
        have hpm : (render_thread_run .init
              { state with pipeline := env1.elements.pipeline, appsrc := env1.elements.appsrc,
                           webrtcbin := env1.elements.webrtcbin, render_running := true,
                           render_thread := env1.thread } between).2.1.pipeline ≠ 0 := by
          rw [k1]; exact hpipe
        refine ⟨?_, fun _ _ => ?_, fun _ _ h => ?_⟩
        · unfold start_streaming_twice
          rw [hm, start_streaming_of_pipeline env2 _ hpm, k1]
          by_cases hs2 : env2.set_state = .GST_STATE_CHANGE_FAILURE
          · simp [hs2, hc, hs1, hf, List.count_append, k2, k3]
          · simp [hs2, hc, hs1, hf, List.count_append, k2, k3]
        · rw [hm]
          simp [k1, hf]
        · rw [hf] at h
          exact absurd h (by simp)
      · have hf' : init_fails_first between = false := by simpa using hf
        rw [if_neg hf] at k1
        have hpm : (render_thread_run .init
              { state with pipeline := env1.elements.pipeline, appsrc := env1.elements.appsrc,
                           webrtcbin := env1.elements.webrtcbin, render_running := true,
                           render_thread := env1.thread } between).2.1.pipeline ≠ 0 := by
          rw [k1]; exact hpipe
        refine ⟨?_, fun _ _ => ?_, fun _ _ _ => ?_⟩
        · unfold start_streaming_twice
          rw [hm, start_streaming_of_pipeline env2 _ hpm, k1]
          simp [hc, hs1, hf', List.count_append, k2, k3]
        · rw [hm]
          simp [k1, hf']
        · unfold start_streaming_twice
          rw [hm, start_streaming_of_pipeline env2 _ hpm, k1]
          simp [hpipe]
  · have hp0 : env1.elements.pipeline = 0 := by
      rcases hns with h | h
      · exact absurd h hc
      · exact h
    have h1 := start_streaming_of_not_created env1 state hp hc
    have hm : start_streaming_then_producer env1 between state =
        ({ state with pipeline := env1.elements.pipeline, appsrc := env1.elements.appsrc,
                      webrtcbin := env1.elements.webrtcbin }, [Effect.create_pipeline]) := by
      unfold start_streaming_then_producer
      rw [h1]
      simp
    refine ⟨?_, fun h => absurd h hc, fun h => absurd h hc⟩
    have hge := count_create_start_streaming_idle env2
      { state with pipeline := env1.elements.pipeline, appsrc := env1.elements.appsrc,
                   webrtcbin := env1.elements.webrtcbin } hp0
    constructor
    · intro h
      exfalso
      unfold start_streaming_twice at h
      rw [hm] at h
      have h' := h.1
      simp only [List.count_append, List.count_cons_self, List.count_nil] at h'
      omega
    · intro h
      exact absurd h.1 hc

/-- C4, amended, with working libraries in both calls and the producer
pushing one frame in between: one pipeline, one thread.  With a failed
`renderer_init` in between, the same two calls create two threads. -/
theorem start_streaming_twice_once_witness :
    initial_state.pipeline = 0 ∧ initial_state.render_running = false ∧
    (create_pipeline env_ok.elements initial_state).1 = true ∧
    (start_streaming_twice env_ok env_ok [(true, .sleep), (true, .sleep), (true, .push_ok)]
      initial_state).2.count Effect.create_pipeline = 1 ∧
    (start_streaming_twice env_ok env_ok [(true, .sleep), (true, .sleep), (true, .push_ok)]
      initial_state).2.count Effect.pthread_create_render_thread_main = 1 ∧
    (start_streaming_twice env_ok env_ok [(false, .sleep)] initial_state).2.count
      Effect.pthread_create_render_thread_main = 2 :=
  ⟨rfl, rfl, by decide,
    ((start_streaming_twice_once env_ok env_ok [(true, .sleep), (true, .sleep), (true, .push_ok)]
      initial_state rfl rfl (Or.inl (by decide))).1.mpr
        ⟨by decide, Or.inl ⟨by decide, Or.inl (by decide)⟩⟩).1,
    ((start_streaming_twice_once env_ok env_ok [(true, .sleep), (true, .sleep), (true, .push_ok)]
      initial_state rfl rfl (Or.inl (by decide))).1.mpr
        ⟨by decide, Or.inl ⟨by decide, Or.inl (by decide)⟩⟩).2,
    by decide⟩

/-- C5 fails on the code: when `x264enc` cannot be created, `create_pipeline`
returns false inside `start_streaming` but leaves the pipeline slot filled, so
the next `start_streaming` does not enter `create_pipeline` again; it sets the
unfinished pipeline to playing and starts the producer thread. -/
theorem start_streaming_failed_allocation_keeps_pipeline :
    initial_state.pipeline = 0 ∧ initial_state.render_running = false ∧
    (create_pipeline env_no_encoder.elements initial_state).1 = false ∧
    (start_streaming env_no_encoder initial_state).1.pipeline = 10 ∧
    (start_streaming env_no_encoder initial_state).1.render_running = false ∧
    (start_streaming env_no_encoder initial_state).2 = [Effect.create_pipeline] ∧
    (start_streaming env_ok (start_streaming env_no_encoder initial_state).1).2 =
      [Effect.gst_element_set_state 10 .GST_STATE_PLAYING,
        Effect.pthread_create_render_thread_main] := by
  decide

/-- C6: in an active state (producer running, pipeline present)
`stop_streaming` first joins the producer thread and only then releases the
pipeline (`gst_element_set_state` to null, `gst_object_unref`); afterwards
`render_running` is false and the pipeline slot is empty.  Run next to the
producer thread, under every schedule of the two threads and wherever the
producer stands when `stop_streaming` is called, no
`gst_app_src_push_buffer` follows a release call, and once `stop_streaming`
has returned the producer has returned too. -/
theorem stop_streaming_joins_before_release (state : AppState)
    (hr : state.render_running = true) (hp : state.pipeline ≠ 0) :
    stop_streaming state =
      ({ state with render_running := false, pipeline := 0, appsrc := 0, webrtcbin := 0 },
        [Effect.pthread_join state.render_thread,
          Effect.gst_element_set_state state.pipeline .GST_STATE_NULL,
          Effect.gst_object_unref state.pipeline]) ∧
    ∀ (producer : ProducerPc) (turns : List Turn),
      no_feed_after_release (threads_run ⟨state, producer, .test, []⟩ turns).trace = true ∧
      ((threads_run ⟨state, producer, .test, []⟩ turns).stop = .returned →
        (threads_run ⟨state, producer, .test, []⟩ turns).producer = .exited ∧
        (threads_run ⟨state, producer, .test, []⟩ turns).state.render_running = false ∧
        (threads_run ⟨state, producer, .test, []⟩ turns).state.pipeline = 0) := by
  refine ⟨by simp [stop_streaming, destroy_pipeline, hr, hp], fun producer turns => ?_⟩
  have h0 : stop_inv ⟨state, producer, .test, []⟩ := by
    refine ⟨fun _ hf => ?_, by simp, by simp, by simp, by simp, rfl⟩
    rw [hr] at hf
    exact absurd hf (by simp)
  obtain ⟨_, _, _, h4, _, h6⟩ := stop_inv_run turns _ h0
  exact ⟨h6, h4⟩

/-- C6 on the state reached by a successful `start_streaming`, with the
producer inside its loop body when `stop_streaming` is called: the producer
still pushes one frame, sees the cleared flag and returns, and only then the
join returns and the pipeline is released. -/
theorem stop_streaming_joins_before_release_witness :
    (start_streaming env_ok initial_state).1.render_running = true ∧
    (start_streaming env_ok initial_state).1.pipeline ≠ 0 ∧
    (stop_streaming (start_streaming env_ok initial_state).1).2 =
      [Effect.pthread_join 20, Effect.gst_element_set_state 10 .GST_STATE_NULL,
        Effect.gst_object_unref 10] ∧
    (threads_run ⟨(start_streaming env_ok initial_state).1, .body, .test, []⟩
        [.stop, .stop, .producer true .push_ok, .stop, .producer true .push_ok, .stop, .stop,
          .producer true .push_ok]).trace =
      [Effect.gst_app_src_push_buffer 11, Effect.pthread_join 20,
        Effect.gst_element_set_state 10 .GST_STATE_NULL, Effect.gst_object_unref 10] ∧
    no_feed_after_release
      (threads_run ⟨(start_streaming env_ok initial_state).1, .body, .test, []⟩
        [.stop, .stop, .producer true .push_ok, .stop, .producer true .push_ok, .stop, .stop,
          .producer true .push_ok]).trace = true :=
  ⟨by decide, by decide,
    congrArg Prod.snd
      (stop_streaming_joins_before_release (start_streaming env_ok initial_state).1
        (by decide) (by decide)).1,
    by decide,
    ((stop_streaming_joins_before_release (start_streaming env_ok initial_state).1
        (by decide) (by decide)).2 .body _).1⟩

/-- C7: in the idle state (pipeline slot empty, producer not running)
`stop_streaming` makes no call at all and returns the state unchanged. -/
theorem stop_streaming_idle_noop (state : AppState)
    (hp : state.pipeline = 0) (hr : state.render_running = false) :
    stop_streaming state = (state, []) := by
  simp [stop_streaming, destroy_pipeline, hr, hp]

/-- C7 on the initial state. -/
theorem stop_streaming_idle_noop_witness :
    initial_state.pipeline = 0 ∧ initial_state.render_running = false ∧
    stop_streaming initial_state = (initial_state, []) :=
  ⟨rfl, rfl, stop_streaming_idle_noop initial_state rfl rfl⟩

/-- C8 as stated fails: when the reply to `create-answer` carries no answer,
processing the offer text of the unit test enters `handle_offer` once and
emits `set-remote-description` and `create-answer`, but no message is
enqueued: the queue is as empty as before. -/
theorem offer_without_answer_enqueues_nothing :
    (handle_ws_message_then_reply ⟨true, true⟩ 7 none initial_state offer_message).2 =
      [Effect.handle_offer ['v', '=', '0', '\r', '\n'],
        Effect.g_signal_emit_by_name 0 (.set_remote_description ['v', '=', '0', '\r', '\n']),
        Effect.g_signal_emit_by_name 0 .create_answer] ∧
    (handle_ws_message_then_reply ⟨true, true⟩ 7 none initial_state offer_message).1.ws_head = 0 ∧
    (handle_ws_message_then_reply ⟨true, true⟩ 7 none initial_state offer_message).1.ws_tail = 0 ∧
    (handle_ws_message_then_reply ⟨true, true⟩ 7 none initial_state offer_message).1.live 7
      = false := by
  decide

/-- C8, amended: whatever GStreamer answers, `handle_ws_message` on
`{"type":"offer","sdp":"v=0\r\n"}` decodes the type `offer`, enters
`handle_offer` exactly once with the text v=0 CR LF, changes no field of the
state and enqueues nothing.  If `gst_sdp_message_new` or the parse fails,
no signal is emitted and no answer is enqueued whatever the reply.
Otherwise the offer is recorded by `set-remote-description` on `webrtcbin`
and `create-answer` is requested; a reply without answer enqueues nothing,
and a reply with an answer makes `on_answer_created` enqueue exactly one
message, `{"type":"answer","sdp":"<json_escape answer>"}`, at the tail of
the queue. -/
theorem offer_message_processing (env : OfferEnv) (state : AppState) (item : Nat) :
    json_get_string offer_message ['t', 'y', 'p', 'e'] = some ['o', 'f', 'f', 'e', 'r'] ∧
    handle_ws_message env state offer_message =
      (state,
        Effect.handle_offer ['v', '=', '0', '\r', '\n'] ::
          (if env.sdp_new_ok = true ∧ env.parse_ok = true then
            [Effect.g_signal_emit_by_name state.webrtcbin
                (.set_remote_description ['v', '=', '0', '\r', '\n']),
              Effect.g_signal_emit_by_name state.webrtcbin .create_answer]
          else [])) ∧
    (handle_ws_message env state offer_message).2.count
        (Effect.handle_offer ['v', '=', '0', '\r', '\n']) = 1 ∧
    handle_ws_message_then_reply env item none state offer_message =
      handle_ws_message env state offer_message ∧
    (env.sdp_new_ok = false ∨ env.parse_ok = false →
      ∀ answer, handle_ws_message_then_reply env item answer state offer_message =
        (state, [Effect.handle_offer ['v', '=', '0', '\r', '\n']])) ∧
    (∀ (answer : List Char) (addrs : List Nat),
      env.sdp_new_ok = true → env.parse_ok = true → queue_inv state addrs → item ≠ 0 →
      state.live item = false →
      queue_inv (handle_ws_message_then_reply env item (some answer) state offer_message).1
        (addrs ++ [item]) ∧
      contents (handle_ws_message_then_reply env item (some answer) state offer_message).1.heap
          (addrs ++ [item]) =
        contents state.heap addrs ++
          [(['{', '"', 't', 'y', 'p', 'e', '"', ':', '"', 'a', 'n', 's', 'w', 'e', 'r', '"', ',',
              '"', 's', 'd', 'p', '"', ':', '"'] ++ json_escape answer ++ ['"', '}'],
            26 + (json_escape answer).length)] ∧
      written (handle_ws_message_then_reply env item (some answer) state offer_message).2
        = []) := by
  refine ⟨by decide, handle_ws_message_offer env state, ?_,
    handle_ws_message_then_reply_none env item state offer_message,
    fun h answer => handle_ws_message_then_reply_rejected env item answer state h,
    fun answer addrs hnew hparse hinv h0 hfree =>
      (offer_reply_enqueues_one env state item answer addrs hnew hparse hinv h0 hfree).2.2⟩
  rw [handle_ws_message_offer]
  split_ifs <;> simp

/-- C8, amended, on the initial state with the answer text `v=0` LF: one
answer message is queued in the fresh node. -/
theorem offer_message_processing_witness :
    queue_inv initial_state [] ∧ (7 : Nat) ≠ 0 ∧ initial_state.live 7 = false ∧
    queue_inv
      (handle_ws_message_then_reply ⟨true, true⟩ 7 (some ['v', '=', '0', '\n']) initial_state
        offer_message).1 [7] ∧
    contents
        (handle_ws_message_then_reply ⟨true, true⟩ 7 (some ['v', '=', '0', '\n']) initial_state
          offer_message).1.heap [7] =
      [(['{', '"', 't', 'y', 'p', 'e', '"', ':', '"', 'a', 'n', 's', 'w', 'e', 'r', '"', ',',
          '"', 's', 'd', 'p', '"', ':', '"', 'v', '=', '0', '\\', 'n', '"', '}'], 31)] ∧
    handle_ws_message_then_reply ⟨false, true⟩ 7 (some ['v', '=', '0', '\n']) initial_state
        offer_message =
      (initial_state, [Effect.handle_offer ['v', '=', '0', '\r', '\n']]) :=
  ⟨⟨rfl, List.nodup_nil, fun a ha => absurd ha (List.not_mem_nil a), rfl⟩, by decide, rfl,
    ((offer_message_processing ⟨true, true⟩ initial_state 7).2.2.2.2.2 ['v', '=', '0', '\n'] []
      rfl rfl ⟨rfl, List.nodup_nil, fun a ha => absurd ha (List.not_mem_nil a), rfl⟩
      (by decide) rfl).1,
    ((offer_message_processing ⟨true, true⟩ initial_state 7).2.2.2.2.2 ['v', '=', '0', '\n'] []
      rfl rfl ⟨rfl, List.nodup_nil, fun a ha => absurd ha (List.not_mem_nil a), rfl⟩
      (by decide) rfl).2.1.trans (by decide),
    (offer_message_processing ⟨false, true⟩ initial_state 7).2.2.2.2.1 (Or.inl rfl) _⟩

/-- C9: for every NUL-free candidate `c` and every index `0 ≤ m ≤ INT_MAX`,
`handle_ws_message` on the text `ws_send_ice` produces for `(c, m)` enters
`handle_ice` exactly once, with exactly `c` and `m` (which it passes on in
`add-ice-candidate`), and leaves the state, the outbound queue included,
unchanged. -/
theorem ice_message_forwarded (env : OfferEnv) (state : AppState) (c : List Char) (m : Int)
    (hc : NUL ∉ c) (h0 : 0 ≤ m) (h1 : m ≤ 2147483647) :
    handle_ws_message env state (ice_message c m) =
      (state,
        [Effect.handle_ice c m,
          Effect.g_signal_emit_by_name state.webrtcbin (.add_ice_candidate m c)]) := by
  have k1 : strcmp_eq ['i', 'c', 'e'] ['o', 'f', 'f', 'e', 'r'] = false := by decide
  have k2 : strcmp_eq ['i', 'c', 'e'] ['i', 'c', 'e'] = true := by decide
  simp [handle_ws_message, json_get_string_type_ice_message c m h0,
    json_get_string_candidate_ice_message c m hc h0, json_get_int_ice_message c m h0 h1,
    k1, k2, handle_ice]

/-- C9 on the message of the specification,
`{"type":"ice","candidate":"X","sdpMLineIndex":2}`. -/
theorem ice_message_forwarded_witness :
    NUL ∉ ['X'] ∧ (0 : Int) ≤ 2 ∧ (2 : Int) ≤ 2147483647 ∧
    ice_message ['X'] 2 =
      ['{', '"', 't', 'y', 'p', 'e', '"', ':', '"', 'i', 'c', 'e', '"', ',',
        '"', 'c', 'a', 'n', 'd', 'i', 'd', 'a', 't', 'e', '"', ':', '"', 'X', '"', ',',
        '"', 's', 'd', 'p', 'M', 'L', 'i', 'n', 'e', 'I', 'n', 'd', 'e', 'x', '"', ':', '2', '}'] ∧
    handle_ws_message ⟨true, true⟩ initial_state (ice_message ['X'] 2) =
      (initial_state,
        [Effect.handle_ice ['X'] 2,
          Effect.g_signal_emit_by_name initial_state.webrtcbin (.add_ice_candidate 2 ['X'])]) :=
  ⟨by decide, by decide, by decide, by decide,
    ice_message_forwarded ⟨true, true⟩ initial_state ['X'] 2 (by decide) (by decide) (by decide)⟩

/-- C10: a message whose `type` cannot be decoded, whose decoded `type` is
neither `offer` nor `ice`, or whose required string field (`sdp` for an offer,
`candidate` for a candidate) cannot be decoded leaves the state unchanged and
makes no call: nothing is enqueued and neither `handle_offer` nor `handle_ice`
is entered. -/
theorem handle_ws_message_drops (env : OfferEnv) (state : AppState) (message : List Char)
    (h : json_get_string message ['t', 'y', 'p', 'e'] = none ∨
      (∃ t, json_get_string message ['t', 'y', 'p', 'e'] = some t ∧
        t ≠ ['o', 'f', 'f', 'e', 'r'] ∧ t ≠ ['i', 'c', 'e']) ∨
      (json_get_string message ['t', 'y', 'p', 'e'] = some ['o', 'f', 'f', 'e', 'r'] ∧
        json_get_string message ['s', 'd', 'p'] = none) ∨
      (json_get_string message ['t', 'y', 'p', 'e'] = some ['i', 'c', 'e'] ∧
        json_get_string message ['c', 'a', 'n', 'd', 'i', 'd', 'a', 't', 'e'] = none)) :
    handle_ws_message env state message = (state, []) := by
  rcases h with h | ⟨t, ht, hto, hti⟩ | ⟨ht, hs⟩ | ⟨ht, hcand⟩
  · simp [handle_ws_message, h]
  · have hnul := nul_not_mem_json_get_string _ _ _ ht
    have hct : cstr t = t := cstr_of_nul_free t hnul
    have h1 : strcmp_eq t ['o', 'f', 'f', 'e', 'r'] = false := by
      simp only [strcmp_eq, hct, decide_eq_false_iff_not]
      intro e
      exact hto (e.trans (by decide))
    have h2 : strcmp_eq t ['i', 'c', 'e'] = false := by
      simp only [strcmp_eq, hct, decide_eq_false_iff_not]
      intro e
      exact hti (e.trans (by decide))
    simp [handle_ws_message, ht, h1, h2]
  · have h1 : strcmp_eq ['o', 'f', 'f', 'e', 'r'] ['o', 'f', 'f', 'e', 'r'] = true := by decide
    simp [handle_ws_message, ht, hs, h1]
  · have h1 : strcmp_eq ['i', 'c', 'e'] ['o', 'f', 'f', 'e', 'r'] = false := by decide
    have h2 : strcmp_eq ['i', 'c', 'e'] ['i', 'c', 'e'] = true := by decide
    simp [handle_ws_message, ht, hcand, h1, h2]

/-- C10 on the text `{"type":"bye"}`, whose type is neither `offer` nor `ice`. -/
theorem handle_ws_message_drops_witness :
    json_get_string bye_message ['t', 'y', 'p', 'e'] = some ['b', 'y', 'e'] ∧
    handle_ws_message ⟨true, true⟩ initial_state bye_message = (initial_state, []) :=
  ⟨by decide,
    handle_ws_message_drops ⟨true, true⟩ initial_state bye_message
      (Or.inr (Or.inl ⟨['b', 'y', 'e'], by decide, by decide, by decide⟩))⟩

/-- C11: `json_get_string` returns the unescaped value of the named string
field: on the text `{"type":"offer","sdp":"<json_escape v>"}`, for every
NUL-free `v`, the key `sdp` gives exactly `v` and the key `type` gives
`offer`. -/
theorem json_get_string_of_offer_text (v : List Char) (hv : NUL ∉ v) :
    sdp_message ['o', 'f', 'f', 'e', 'r'] v =
      ['{', '"', 't', 'y', 'p', 'e', '"', ':', '"', 'o', 'f', 'f', 'e', 'r', '"', ',',
        '"', 's', 'd', 'p', '"', ':', '"'] ++ (json_escape v ++ ['"', '}']) ∧
    json_get_string (sdp_message ['o', 'f', 'f', 'e', 'r'] v) ['s', 'd', 'p'] = some v ∧
    json_get_string (sdp_message ['o', 'f', 'f', 'e', 'r'] v) ['t', 'y', 'p', 'e'] =
      some ['o', 'f', 'f', 'e', 'r'] :=
  ⟨sdp_message_offer_form v, json_get_string_sdp_of_offer v hv, json_get_string_type_of_offer v⟩

/-- C11 on the text of the unit test, `{"type":"offer","sdp":"v=0\r\n"}`:
the type is `offer` and the SDP is v=0 CR LF. -/
theorem json_get_string_of_offer_text_witness :
    NUL ∉ ['v', '=', '0', '\r', '\n'] ∧
    sdp_message ['o', 'f', 'f', 'e', 'r'] ['v', '=', '0', '\r', '\n'] = offer_message ∧
    json_get_string (sdp_message ['o', 'f', 'f', 'e', 'r'] ['v', '=', '0', '\r', '\n'])
      ['s', 'd', 'p'] = some ['v', '=', '0', '\r', '\n'] ∧
    json_get_string (sdp_message ['o', 'f', 'f', 'e', 'r'] ['v', '=', '0', '\r', '\n'])
      ['t', 'y', 'p', 'e'] = some ['o', 'f', 'f', 'e', 'r'] :=
  ⟨by decide, by decide,
    (json_get_string_of_offer_text ['v', '=', '0', '\r', '\n'] (by decide)).2.1,
    (json_get_string_of_offer_text ['v', '=', '0', '\r', '\n'] (by decide)).2.2⟩

/-- C12: on every NUL-free input `json_escape` is the character-wise
reference encoding (quote, backslash, LF, CR, TAB become backslash plus `"`,
`\`, `n`, `r`, `t`, every other character is kept), so its output contains no
raw LF, CR or TAB. -/
theorem json_escape_is_reference_encoding (S : List Char) (h : NUL ∉ S) :
    json_escape S = reference_escape S ∧
    '\n' ∉ json_escape S ∧ '\r' ∉ json_escape S ∧ '\t' ∉ json_escape S :=
  ⟨json_escape_eq_reference S h,
    not_mem_json_escape_of_raw S _ (Or.inl rfl),
    not_mem_json_escape_of_raw S _ (Or.inr (Or.inl rfl)),
    not_mem_json_escape_of_raw S _ (Or.inr (Or.inr rfl))⟩

/-- C12 on the input of the unit test (line1, LF, line2, quote, backslash):
the output is the 16 characters `line1\nline2\"\\`. -/
theorem json_escape_is_reference_encoding_witness :
    NUL ∉ ['l', 'i', 'n', 'e', '1', '\n', 'l', 'i', 'n', 'e', '2', '"', '\\'] ∧
    json_escape ['l', 'i', 'n', 'e', '1', '\n', 'l', 'i', 'n', 'e', '2', '"', '\\'] =
      ['l', 'i', 'n', 'e', '1', '\\', 'n', 'l', 'i', 'n', 'e', '2', '\\', '"', '\\', '\\'] ∧
    (json_escape ['l', 'i', 'n', 'e', '1', '\n', 'l', 'i', 'n', 'e', '2', '"', '\\']).length
      = 16 ∧
    reference_escape ['l', 'i', 'n', 'e', '1', '\n', 'l', 'i', 'n', 'e', '2', '"', '\\'] =
      ['l', 'i', 'n', 'e', '1', '\\', 'n', 'l', 'i', 'n', 'e', '2', '\\', '"', '\\', '\\'] :=
  ⟨by decide, by decide, by decide,
    (json_escape_is_reference_encoding
      ['l', 'i', 'n', 'e', '1', '\n', 'l', 'i', 'n', 'e', '2', '"', '\\'] (by decide)).1.symm.trans
      (by decide)⟩

/-- C13: `json_get_int` returns the caller's default when the field is
absent: for every text, every NUL-free key of at most 61 characters and
every default `d`, if the quoted key does not occur in the text the result
is `d`; and on the text `{"<key>":<decimal n>}` the result is `n`, for every
`int` value `n`. -/
theorem json_get_int_default_or_value (json key : List Char) (d n : Int)
    (hk : NUL ∉ key) (hlen : key.length ≤ 61) :
    (¬ quoted key <:+: cstr json → json_get_int json key d = d) ∧
    (-2147483648 ≤ n → n ≤ 2147483647 →
      json_get_int ('{' :: (quoted key ++ ':' :: (fmt_d n ++ ['}']))) key d = n) :=
  ⟨json_get_int_of_no_key json key d hk hlen,
    json_get_int_of_single_field key n d hk hlen⟩

/-- C13 on the text of the unit test, `{"sdpMLineIndex":2}`: the key
`missing` with default 7 gives 7, the key `sdpMLineIndex` gives 2. -/
theorem json_get_int_default_or_value_witness :
    NUL ∉ ['m', 'i', 's', 's', 'i', 'n', 'g'] ∧
    ['m', 'i', 's', 's', 'i', 'n', 'g'].length ≤ 61 ∧
    ¬ quoted ['m', 'i', 's', 's', 'i', 'n', 'g'] <:+:
      cstr ['{', '"', 's', 'd', 'p', 'M', 'L', 'i', 'n', 'e', 'I', 'n', 'd', 'e', 'x', '"', ':',
        '2', '}'] ∧
    json_get_int
      ['{', '"', 's', 'd', 'p', 'M', 'L', 'i', 'n', 'e', 'I', 'n', 'd', 'e', 'x', '"', ':',
        '2', '}']
      ['m', 'i', 's', 's', 'i', 'n', 'g'] 7 = 7 ∧
    '{' :: (quoted ['s', 'd', 'p', 'M', 'L', 'i', 'n', 'e', 'I', 'n', 'd', 'e', 'x'] ++
        ':' :: (fmt_d 2 ++ ['}'])) =
      ['{', '"', 's', 'd', 'p', 'M', 'L', 'i', 'n', 'e', 'I', 'n', 'd', 'e', 'x', '"', ':',
        '2', '}'] ∧
    json_get_int
      ('{' :: (quoted ['s', 'd', 'p', 'M', 'L', 'i', 'n', 'e', 'I', 'n', 'd', 'e', 'x'] ++
        ':' :: (fmt_d 2 ++ ['}'])))
      ['s', 'd', 'p', 'M', 'L', 'i', 'n', 'e', 'I', 'n', 'd', 'e', 'x'] 0 = 2 :=
  ⟨by decide, by decide, by decide,
    (json_get_int_default_or_value _ ['m', 'i', 's', 's', 'i', 'n', 'g'] 7 0
      (by decide) (by decide)).1 (by decide),
    by decide,
    (json_get_int_default_or_value [] ['s', 'd', 'p', 'M', 'L', 'i', 'n', 'e', 'I', 'n', 'd', 'e',
      'x'] 0 2 (by decide) (by decide)).2 (by decide) (by decide)⟩

/-- C14: one writable callback on a non-empty queue writes exactly the head
message, removes and frees its node, leaves the remaining messages in their
order, and asks for another writable callback exactly when messages remain;
on an empty queue it makes no call and changes nothing. -/
theorem writeable_pops_exactly_one (wsi : Nat) (state : AppState) (addrs : List Nat)
    (hinv : queue_inv state addrs) :
    (∀ a rest, addrs = a :: rest →
      (ws_callback wsi .LWS_CALLBACK_SERVER_WRITEABLE state).1 = 0 ∧
      (ws_callback wsi .LWS_CALLBACK_SERVER_WRITEABLE state).2.2 =
        Effect.lws_write wsi (state.heap a).data (state.heap a).len ::
          (if rest = [] then [] else [Effect.lws_callback_on_writable wsi]) ∧
      queue_inv (ws_callback wsi .LWS_CALLBACK_SERVER_WRITEABLE state).2.1 rest ∧
      contents (ws_callback wsi .LWS_CALLBACK_SERVER_WRITEABLE state).2.1.heap rest =
        contents state.heap rest ∧
      (ws_callback wsi .LWS_CALLBACK_SERVER_WRITEABLE state).2.1.live a = false) ∧
    (addrs = [] → ws_callback wsi .LWS_CALLBACK_SERVER_WRITEABLE state = (0, state, [])) := by
  refine ⟨fun a rest he => ?_, fun he => ?_⟩
  · subst he
    obtain ⟨h1, h2, h3, h4, h5⟩ := ws_callback_writeable_cons wsi state a rest hinv
    exact ⟨h1, h2, h3, by rw [h4], h5⟩
  · subst he
    exact ws_callback_writeable_nil wsi state hinv

/-- C14 on the queue that holds `a` then `b`: the callback writes `a` and
asks for another callback; `b` stays queued. -/
theorem writeable_pops_exactly_one_witness :
    queue_inv (run_queue initial_state [.push 7 ['a'] 1, .push 9 ['b'] 1]).1 [7, 9] ∧
    (ws_callback 5 .LWS_CALLBACK_SERVER_WRITEABLE
        (run_queue initial_state [.push 7 ['a'] 1, .push 9 ['b'] 1]).1).2.2 =
      [Effect.lws_write 5 ['a'] 1, Effect.lws_callback_on_writable 5] ∧
    queue_inv
      (ws_callback 5 .LWS_CALLBACK_SERVER_WRITEABLE
        (run_queue initial_state [.push 7 ['a'] 1, .push 9 ['b'] 1]).1).2.1 [9] :=
  have h0 : queue_inv initial_state [] :=
    ⟨rfl, List.nodup_nil, fun a ha => absurd ha (List.not_mem_nil a), rfl⟩
  have h1 := (ws_queue_message_inv 7 initial_state ['a'] 1 [] h0 (by decide) rfl).1
  have h2 : queue_inv (run_queue initial_state [.push 7 ['a'] 1, .push 9 ['b'] 1]).1 [7, 9] :=
    (ws_queue_message_inv 9 _ ['b'] 1 [7] h1 (by decide) rfl).1
  ⟨h2,
    ((writeable_pops_exactly_one 5 _ [7, 9] h2).1 7 [9] rfl).2.1.trans (by decide),
    ((writeable_pops_exactly_one 5 _ [7, 9] h2).1 7 [9] rfl).2.2.1⟩

/-- C15: a close of the admitted handle clears `client_wsi` and then hands
`handle_client_closed` over to the main context; a close of any other handle
changes nothing.  Whenever `handle_client_closed` returns, `ws_head` and
`ws_tail` are null, the pipeline slot is empty, `render_running` is false and
nothing was written; and on every well-formed queue it does return (the
drain loop ends after as many steps as there are nodes), with every queued
node freed. -/
theorem client_closed_flushes (wsi : Nat) (state : AppState) :
    (state.client_wsi = wsi →
      ws_callback wsi .LWS_CALLBACK_CLOSED state =
        (0, { state with client_wsi := 0 },
          [Effect.g_main_context_invoke state.main_context .handle_client_closed])) ∧
    (state.client_wsi ≠ wsi → ws_callback wsi .LWS_CALLBACK_CLOSED state = (0, state, [])) ∧
    (∀ fuel state1 tr, handle_client_closed fuel state = some (state1, tr) →
      state1.ws_head = 0 ∧ state1.ws_tail = 0 ∧ state1.pipeline = 0 ∧
        state1.render_running = false ∧ written tr = []) ∧
    (∀ addrs fuel, queue_inv state addrs → addrs.length ≤ fuel →
      ∃ state1, handle_client_closed fuel state = some (state1, (stop_streaming state).2) ∧
        (∀ a ∈ addrs, state1.live a = false) ∧
        (∀ a, a ∉ addrs → state1.live a = state.live a) ∧ queue_inv state1 []) := by
  refine ⟨fun h => ?_, fun h => ?_, fun fuel state1 tr h => ?_, fun addrs fuel hinv hfuel => ?_⟩
  · simp [ws_callback, h]
  · simp [ws_callback, h]
  · exact handle_client_closed_post fuel state state1 tr h
  · exact handle_client_closed_returns fuel state addrs hinv hfuel

/-- C15 with peer 41 admitted and two messages queued: the close of handle
41 clears the slot, and `handle_client_closed` returns with both nodes
freed and the queue empty. -/
theorem client_closed_flushes_witness :
    admitted_state.client_wsi = 41 ∧ queue_inv admitted_state [7, 9] ∧
    ws_callback 41 .LWS_CALLBACK_CLOSED admitted_state =
      (0, { admitted_state with client_wsi := 0 },
        [Effect.g_main_context_invoke admitted_state.main_context .handle_client_closed]) ∧
    ws_callback 42 .LWS_CALLBACK_CLOSED admitted_state = (0, admitted_state, []) ∧
    ∃ state1,
      handle_client_closed 2 admitted_state = some (state1, (stop_streaming admitted_state).2) ∧
      (∀ a ∈ [7, 9], state1.live a = false) ∧
      (∀ a, a ∉ [7, 9] → state1.live a = admitted_state.live a) ∧ queue_inv state1 [] :=
  ⟨rfl, admitted_state_queue_inv,
    (client_closed_flushes 41 admitted_state).1 rfl,
    (client_closed_flushes 42 admitted_state).2.1 (by decide),
    (client_closed_flushes 41 admitted_state).2.2.2 [7, 9] 2 admitted_state_queue_inv
      (by decide)⟩

end CubeServer
